import Mathlib

/-!
# Flynn remote actors: the wire protocol of `Sources/Pony/remote/shared.c`

A shallow embedding of the framing layer that master and slave nodes use to
talk to each other: the three readers (`read_command`, `read_bytecount_buffer`,
`read_intcount_buffer`), the write loop `send_buffer`, the five frame encoders
and `close_socket`.

Modelling conventions.

* A byte is a natural number; a region of memory is the list of its bytes in
  address order.  A C string argument is the list of its bytes before the
  terminating NUL, so `strlen` is the length of that list.
* The socket is an explicit state `Sock` that every operation takes and
  returns.  What the kernel and the peer do is not decided by the program: it
  is read from an environment `Env`, which says for the i-th `send` and the
  i-th `recv` whether the call fails or how many bytes it may move.
* `uint8_t` and `uint32_t` values are reduced modulo 2^8 and 2^32 where they are
  stored, and the `int` that receives the result of `send` is reduced to a
  signed 32-bit value.  One `send` call moves at most 2^31 - 1 bytes.
* A store outside the 512-byte scratch array of an encoder is undefined
  behaviour in C: the encoders return `Except.error (Fault.outOfBounds i)`
  there, `i` being the first index outside the array that is written.
* `send_buffer` loops, so it takes a bound on the number of iterations and
  returns `Fault.outOfFuel` when the bound does not suffice.
-/

namespace Flynn

/-! ## Constants and machine integers -/

/-- The command tags.  They are `#define`d in `remote.h`, which is not among
the sources at hand, so they are parameters of every function that uses one. -/
structure Commands where
  COMMAND_NULL : Nat
  COMMAND_VERSION_CHECK : Nat
  COMMAND_CREATE_ACTOR : Nat
  COMMAND_DESTROY_ACTOR : Nat
  COMMAND_SEND_MESSAGE : Nat
  COMMAND_SEND_REPLY : Nat

/-- Size of the scratch array `char buffer[512]` of every encoder. -/
def BUFFER_SIZE : Nat := 512

/-- Conversion of an integer to `int` (32 bits, two's complement). -/
def toInt32 (x : Int) : Int :=
  let r := x % 4294967296
  if r < 2147483648 then r else r - 4294967296

/-- The four bytes, in address order, of `htonl(count)`: the 32-bit value
most significant byte first. -/
def htonl (count : Nat) : List Nat :=
  let c := count % 4294967296
  [c / 16777216 % 256, c / 65536 % 256, c / 256 % 256, c % 256]

/-- Big-endian value of a list of bytes. -/
def beValue (bs : List Nat) : Nat :=
  bs.foldl (fun acc b => acc * 256 + b) 0

/-- The value `ntohl(*p)` for a `uint32_t` whose four bytes in memory, in
address order, are `mem`. -/
def ntohl (mem : List Nat) : Nat :=
  beValue (mem.take 4) % 4294967296

/-- Result of storing `data` at the start of the memory region `dst`: the
first `data.length` bytes are overwritten, the others keep their value. -/
def store (dst data : List Nat) : List Nat :=
  data ++ dst.drop data.length

/-- Value of a one-byte variable initialised to `init` after `data` (at most
one byte) has been stored over it. -/
def firstOr (init : Nat) : List Nat → Nat
  | [] => init
  | b :: _ => b

/-! ## The socket and its environment -/

/-- What the environment decides about one `send` or `recv` call: the call
fails, or it may move up to `k` bytes. -/
inductive Xfer where
  | error : Xfer
  | upTo (k : Nat) : Xfer
deriving DecidableEq

/-- The environment of the program: the behaviour of the i-th `send` call,
of the i-th `recv` call, and the content of freshly allocated memory. -/
structure Env where
  sendPlan : Nat → Xfer
  recvPlan : Nat → Xfer
  garbage : Nat → Nat

/-- The system calls made on the socket, as recorded in its trace. -/
inductive Syscall where
  | recv (len : Nat) (ret : Int) : Syscall
  | send (len : Nat) (ret : Int) : Syscall
  | shutdown_rdwr : Syscall
  | close : Syscall
deriving DecidableEq

/-- State of the connection behind `socketfd`: the bytes the peer has sent
and the program has not yet received, the bytes the transport has accepted
from the program, the number of `recv` and `send` calls made, whether the
descriptor has been closed, and the system calls made so far, oldest first. -/
structure Sock where
  inbound : List Nat
  outbound : List Nat
  recvs : Nat
  sends : Nat
  closed : Bool
  trace : List Syscall
deriving DecidableEq

/-- Outcome of a `recv` call: the returned value, the bytes stored at the
start of the destination, and the socket afterwards. -/
structure RecvResult where
  ret : Int
  data : List Nat
  sock : Sock

/-- The call `recv(socketfd, buf, len, 0)`.  On a closed descriptor or when the
environment says so it fails with -1 and delivers nothing; otherwise it
delivers the next bytes of the stream, as many as the environment allows but
at most `len` and at most what the stream still holds, and returns their
number (0 when there is none: the peer has closed, or `len` is 0). -/
def recv (env : Env) (s : Sock) (len : Nat) : RecvResult :=
  if s.closed then
    ⟨-1, [], { s with recvs := s.recvs + 1, trace := s.trace ++ [Syscall.recv len (-1)] }⟩
  else
    match env.recvPlan s.recvs with
    | Xfer.error =>
      ⟨-1, [], { s with recvs := s.recvs + 1, trace := s.trace ++ [Syscall.recv len (-1)] }⟩
    | Xfer.upTo k =>
      let data := s.inbound.take (min k len)
      ⟨data.length, data,
        { s with inbound := s.inbound.drop (min k len), recvs := s.recvs + 1,
                 trace := s.trace ++ [Syscall.recv len data.length] }⟩

/-- Outcome of a `send` call: the returned value and the socket afterwards. -/
structure SendResult where
  ret : Int
  sock : Sock

/-- Largest number of bytes one `send` call moves.  The kernels this code
runs on cap a single transfer below 2^31 bytes, so the value `send` returns
fits the `int` in which `send_buffer` keeps it. -/
def MAX_XFER : Nat := 2147483647

/-- The call `send(socketfd, buf, len, 0)` for the `len` bytes `buf`.  On a
closed descriptor or when the environment says so it fails with -1 and
accepts nothing; otherwise the transport accepts a leading part of `buf`, as
long as the environment allows and at most `MAX_XFER` bytes, and the call
returns its length. -/
def send (env : Env) (s : Sock) (buf : List Nat) : SendResult :=
  if s.closed then
    ⟨-1, { s with sends := s.sends + 1, trace := s.trace ++ [Syscall.send buf.length (-1)] }⟩
  else
    match env.sendPlan s.sends with
    | Xfer.error =>
      ⟨-1, { s with sends := s.sends + 1, trace := s.trace ++ [Syscall.send buf.length (-1)] }⟩
    | Xfer.upTo k =>
      let n := min k (min buf.length MAX_XFER)
      ⟨n, { s with outbound := s.outbound ++ buf.take n, sends := s.sends + 1,
                   trace := s.trace ++ [Syscall.send buf.length n] }⟩

/-- The function `close_socket`: `shutdown(fd, SHUT_RDWR)` and then `close(fd)`. -/
def close_socket (s : Sock) : Sock :=
  let s1 := { s with trace := s.trace ++ [Syscall.shutdown_rdwr] }
  { s1 with closed := true, trace := s1.trace ++ [Syscall.close] }

/-- Memory returned by `malloc(n)`: `n` bytes of unspecified content, which
the environment supplies.  Allocation is taken to succeed. -/
def malloc (env : Env) (n : Nat) : List Nat :=
  (List.range n).map env.garbage

/-! ## Readers -/

/-- Outcome of `read_intcount_buffer`: the returned pointer (`none` is NULL,
otherwise the content of the allocated buffer), the value assigned to `*count`
(`none` when `*count` is not assigned) and the socket afterwards. -/
structure IntcountResult where
  bytes : Option (List Nat)
  count : Option Nat
  sock : Sock

/-- The function `read_intcount_buffer`; `count_mem` are the four bytes found
in `*count` at the call. -/
def read_intcount_buffer (env : Env) (s : Sock) (count_mem : List Nat) : IntcountResult :=
  let r1 := recv env s 4
  if r1.ret ≤ 0 then
    ⟨none, none, r1.sock⟩
  else
    let count := ntohl (store count_mem r1.data)
    let bytes := malloc env count
    let r2 := recv env r1.sock count
    if r2.ret ≤ 0 then
      ⟨none, some count, r2.sock⟩
    else
      ⟨some (store bytes r2.data), some count, r2.sock⟩

/-- Outcome of `read_bytecount_buffer`: the returned flag, the content of
`dst` and the socket afterwards. -/
structure BytecountResult where
  ok : Bool
  dst : List Nat
  sock : Sock

/-- The local `uint8_t count` of `read_bytecount_buffer` after its first
`recv`: the byte delivered, or the initial 0 when none is. -/
def declared_count (env : Env) (s : Sock) : Nat :=
  firstOr 0 (recv env s 1).data % 256

/-- The function `read_bytecount_buffer`; `dst` is the content of the
destination at the call. -/
def read_bytecount_buffer (env : Env) (s : Sock) (dst : List Nat) (max_length : Nat) :
    BytecountResult :=
  let r1 := recv env s 1
  let count := firstOr 0 r1.data % 256
  if count ≥ max_length then
    ⟨false, dst, close_socket r1.sock⟩
  else
    let r2 := recv env r1.sock count
    ⟨true, store dst r2.data, r2.sock⟩

/-- The function `read_command`: the returned command byte and the socket
afterwards. -/
def read_command (c : Commands) (env : Env) (s : Sock) : Nat × Sock :=
  let r := recv env s 1
  (firstOr (c.COMMAND_NULL % 256) r.data % 256, r.sock)

/-! ## Writers -/

/-- Ways in which a run of an encoder does not come to a defined end. -/
inductive Fault where
  | outOfBounds (index : Nat) : Fault
  | outOfFuel : Fault
deriving DecidableEq

/-- The function `send_buffer` on the `length` bytes `bytes`; the first
argument bounds the number of loop iterations. -/
def send_buffer (env : Env) : Nat → Sock → List Nat → Except Fault Sock
  | 0, s, bytes => if bytes.length > 0 then Except.error Fault.outOfFuel else Except.ok s
  | fuel + 1, s, bytes =>
    if bytes.length > 0 then
      let r := send env s bytes
      let bytes_sent := toInt32 r.ret
      if bytes_sent < 0 then
        Except.ok r.sock
      else
        send_buffer env fuel r.sock (bytes.drop bytes_sent.toNat)
    else
      Except.ok s

/-- The scratch array `char buffer[512]` of an encoder together with its
cursor `idx`: `data` are the bytes `buffer[0 .. idx)`.  Every store of an
encoder is at `idx` and advances it, so these are the bytes stored so far. -/
structure Scratch where
  data : List Nat

/-- The cursor `idx`. -/
def Scratch.idx (b : Scratch) : Nat := b.data.length

/-- The statement `buffer[idx++] = x`. -/
def Scratch.put (b : Scratch) (x : Nat) : Except Fault Scratch :=
  if b.idx < BUFFER_SIZE then Except.ok ⟨b.data ++ [x % 256]⟩
  else Except.error (Fault.outOfBounds b.idx)

/-- The statements `memcpy(buffer + idx, src, n); idx += n`, for `n` at most
the length of `src`. -/
def Scratch.memcpy (b : Scratch) (src : List Nat) (n : Nat) : Except Fault Scratch :=
  if b.idx + n ≤ BUFFER_SIZE then Except.ok ⟨b.data ++ src.take n⟩
  else Except.error (Fault.outOfBounds (max b.idx BUFFER_SIZE))

/-- The function `send_version_check`; `BUILD_VERSION_UUID` is the global
string of that name (the build time stamp). -/
def send_version_check (c : Commands) (BUILD_VERSION_UUID : List Nat) (env : Env) (fuel : Nat)
    (s : Sock) : Except Fault Sock := do
  let buffer : Scratch := ⟨[]⟩
  let buffer ← buffer.put c.COMMAND_VERSION_CHECK
  let uuid_count := BUILD_VERSION_UUID.length % 256
  let buffer ← buffer.put uuid_count
  let buffer ← buffer.memcpy BUILD_VERSION_UUID uuid_count
  send_buffer env fuel s buffer.data

/-- The function `send_create_actor`. -/
def send_create_actor (c : Commands) (env : Env) (fuel : Nat) (s : Sock)
    (actorUUID actorType : List Nat) : Except Fault Sock := do
  let buffer : Scratch := ⟨[]⟩
  let buffer ← buffer.put c.COMMAND_CREATE_ACTOR
  let uuid_count := actorUUID.length % 256
  let buffer ← buffer.put uuid_count
  let buffer ← buffer.memcpy actorUUID uuid_count
  let type_count := actorType.length % 256
  let buffer ← buffer.put type_count
  let buffer ← buffer.memcpy actorType type_count
  send_buffer env fuel s buffer.data

/-- The function `send_destroy_actor`. -/
def send_destroy_actor (c : Commands) (env : Env) (fuel : Nat) (s : Sock)
    (actorUUID : List Nat) : Except Fault Sock := do
  let buffer : Scratch := ⟨[]⟩
  let buffer ← buffer.put c.COMMAND_DESTROY_ACTOR
  let uuid_count := actorUUID.length % 256
  let buffer ← buffer.put uuid_count
  let buffer ← buffer.memcpy actorUUID uuid_count
  send_buffer env fuel s buffer.data

/-- The function `send_message`; `bytes` is the memory behind the pointer of
that name, of which the caller passes the first `count` bytes (`count` is a
`uint32_t`). -/
def send_message (c : Commands) (env : Env) (fuel : Nat) (s : Sock)
    (actorUUID behaviorType bytes : List Nat) (count : Nat) : Except Fault Sock := do
  let count := count % 4294967296
  let buffer : Scratch := ⟨[]⟩
  let buffer ← buffer.put c.COMMAND_SEND_MESSAGE
  let uuid_count := actorUUID.length % 256
  let buffer ← buffer.put uuid_count
  let buffer ← buffer.memcpy actorUUID uuid_count
  let behavior_count := behaviorType.length % 256
  let buffer ← buffer.put behavior_count
  let buffer ← buffer.memcpy behaviorType behavior_count
  let s ← send_buffer env fuel s buffer.data
  let net_count := htonl count
  let s := (send env s net_count).sock
  send_buffer env fuel s (bytes.take count)

/-- The function `send_reply`; `bytes` and `count` are as in `send_message`. -/
def send_reply (c : Commands) (env : Env) (fuel : Nat) (s : Sock)
    (actorUUID bytes : List Nat) (count : Nat) : Except Fault Sock := do
  let count := count % 4294967296
  let buffer : Scratch := ⟨[]⟩
  let buffer ← buffer.put c.COMMAND_SEND_REPLY
  let uuid_count := actorUUID.length % 256
  let buffer ← buffer.put uuid_count
  let buffer ← buffer.memcpy actorUUID uuid_count
  let s ← send_buffer env fuel s buffer.data
  let net_count := htonl count
  let s := (send env s net_count).sock
  send_buffer env fuel s (bytes.take count)

/-! ## Concrete environments and sockets -/

/-- The tags used in the examples. -/
def tags0 : Commands := ⟨0, 1, 2, 3, 4, 5⟩

/-- An open socket on which nothing has happened yet and whose peer has sent
`stream`. -/
def fresh (stream : List Nat) : Sock := ⟨stream, [], 0, 0, false, []⟩

/-- An environment in which no call fails, every `send` accepts up to
`sendChunk` bytes and every `recv` delivers up to `recvChunk` bytes. -/
def chunked (sendChunk recvChunk : Nat) : Env :=
  ⟨fun _ => Xfer.upTo sendChunk, fun _ => Xfer.upTo recvChunk, fun _ => 170⟩

/-- An environment whose first `recv` delivers up to 4 bytes and every later
one a single byte; fresh memory holds `g`. -/
def shortReads (g : Nat → Nat) : Env :=
  ⟨fun _ => Xfer.upTo 1, fun i => if i = 0 then Xfer.upTo 4 else Xfer.upTo 1, g⟩

/-- An environment in which every call fails. -/
def failing : Env := ⟨fun _ => Xfer.error, fun _ => Xfer.error, fun _ => 170⟩

/-- Number of `send` calls in a trace that returned an error. -/
def failedSends : List Syscall → Nat
  | [] => 0
  | Syscall.send _ ret :: t => (if ret < 0 then 1 else 0) + failedSends t
  | _ :: t => failedSends t

/-- What `send_buffer` hands back to its caller.  The function is declared
`void`: the caller receives no value, whatever happened on the socket. -/
def send_buffer_result (_env : Env) (_fuel : Nat) (_s : Sock) (_bytes : List Nat) : Unit := ()

/-! ## The wire table of the specification -/

/-- Reference encoding of a string field: "u8 len, len bytes". -/
def wire_string (str : List Nat) : List Nat :=
  str.length :: str

/-- Reference encoding of a payload length: four bytes, most significant
first. -/
def wire_u32 (n : Nat) : List Nat :=
  [n >>> 24, (n >>> 16) &&& 255, (n >>> 8) &&& 255, n &&& 255]

/-- Reference encoding of a payload field: "u32 len, len bytes". -/
def wire_payload (payload : List Nat) : List Nat :=
  wire_u32 payload.length ++ payload

/-- Reference frame of `VersionCheck`: the tag, then the version token. -/
def wire_version_check (c : Commands) (uuid : List Nat) : List Nat :=
  c.COMMAND_VERSION_CHECK :: wire_string uuid

/-- Reference frame of `CreateActor`: the tag, the actor UUID, the type name. -/
def wire_create_actor (c : Commands) (actor_uuid type_name : List Nat) : List Nat :=
  c.COMMAND_CREATE_ACTOR :: (wire_string actor_uuid ++ wire_string type_name)

/-- Reference frame of `DestroyActor`: the tag, then the actor UUID. -/
def wire_destroy_actor (c : Commands) (actor_uuid : List Nat) : List Nat :=
  c.COMMAND_DESTROY_ACTOR :: wire_string actor_uuid

/-- Reference frame of `SendMessage`: the tag, the actor UUID, the behavior
name, the payload. -/
def wire_send_message (c : Commands) (actor_uuid behavior_name payload : List Nat) : List Nat :=
  c.COMMAND_SEND_MESSAGE ::
    (wire_string actor_uuid ++ wire_string behavior_name ++ wire_payload payload)

/-- Reference frame of `SendReply`: the tag, the actor UUID, the payload. -/
def wire_send_reply (c : Commands) (actor_uuid payload : List Nat) : List Nat :=
  c.COMMAND_SEND_REPLY :: (wire_string actor_uuid ++ wire_payload payload)

/-- An environment in which the `send` call number `n` fails, every other
`send` accepts up to `k` bytes and every `recv` delivers up to `k` bytes. -/
def failAt (n k : Nat) : Env :=
  ⟨fun i => if i = n then Xfer.error else Xfer.upTo k, fun _ => Xfer.upTo k, fun _ => 170⟩

/-- The frame of `COMMAND_SEND_MESSAGE` as the comment at the head of
`shared.c` lays it out: the command byte, one byte with the length of the
actor uuid, the uuid, the number of bytes of message data, the message data. -/
def documented_send_message (c : Commands) (actor_uuid data : List Nat) : List Nat :=
  c.COMMAND_SEND_MESSAGE :: (wire_string actor_uuid ++ wire_payload data)

/-! ## Shutdown -/

/-- Modelled from the spec: what one role (master or slave) holds, as far as
the shutdown coordinator is concerned.  The roles live in `master.c` and
`slave.c`, which are not among the sources at hand.  A role has its open
connections and the live actors that were created on behalf of them. -/
structure RoleState where
  connections : List Nat
  actors : List Nat
deriving DecidableEq

/-- The two roles of a node. -/
inductive Role where
  | master : Role
  | slave : Role
deriving DecidableEq

/-- Modelled from the spec: the state of the remote layer of one process, with
a record of what has been done to it: the connections closed so far and the
actors released so far, in order, and the roles torn down so far, in order.
This stands for the state behind `master_shutdown` and `slave_shutdown`, which
`shared.c` only declares. -/
structure RemoteRuntime where
  master : RoleState
  slave : RoleState
  closed : List Nat
  released : List Nat
  torn : List Role
deriving DecidableEq

/-- Modelled from the spec: `master_shutdown`, declared `extern` in `shared.c`
and defined outside the sources at hand.  Per the shutdown coordinator of the
specification it closes every open connection of the role and then has the
local runtime release the actors created on behalf of those connections. -/
def master_shutdown (rt : RemoteRuntime) : RemoteRuntime :=
  { rt with master := ⟨[], []⟩,
            closed := rt.closed ++ rt.master.connections,
            released := rt.released ++ rt.master.actors,
            torn := rt.torn ++ [Role.master] }

/-- Modelled from the spec: `slave_shutdown`, declared `extern` in `shared.c`
and defined outside the sources at hand; the same teardown for the slave
role. -/
def slave_shutdown (rt : RemoteRuntime) : RemoteRuntime :=
  { rt with slave := ⟨[], []⟩,
            closed := rt.closed ++ rt.slave.connections,
            released := rt.released ++ rt.slave.actors,
            torn := rt.torn ++ [Role.slave] }

/-- The function `pony_remote_shutdown`: `master_shutdown()` and then
`slave_shutdown()`. -/
def pony_remote_shutdown (rt : RemoteRuntime) : RemoteRuntime :=
  slave_shutdown (master_shutdown rt)

/-! ## The system calls -/

theorem recv_data_length_le (env : Env) (s : Sock) (len : Nat) :
    (recv env s len).data.length ≤ len := by
  unfold recv
  split
  · simp
  · split
    · simp
    · simp only [List.length_take]; omega

theorem recv_recvs (env : Env) (s : Sock) (len : Nat) :
    (recv env s len).sock.recvs = s.recvs + 1 := by
  unfold recv
  split
  · rfl
  · split <;> rfl

theorem recv_ret_le (env : Env) (s : Sock) (len : Nat) : (recv env s len).ret ≤ (len : Int) := by
  unfold recv
  split
  · simp only []; omega
  · split
    · simp only []; omega
    · simp only [List.length_take]; omega

/-- A `recv` on an open socket that the environment lets move `len` bytes
delivers the next `len` bytes of the stream. -/
theorem recv_deliver (env : Env) (s : Sock) (len k : Nat) (data rest : List Nat)
    (hopen : s.closed = false) (hplan : env.recvPlan s.recvs = Xfer.upTo k) (hk : len ≤ k)
    (hin : s.inbound = data ++ rest) (hlen : data.length = len) :
    recv env s len =
      ⟨(len : Int), data,
        { s with inbound := rest, recvs := s.recvs + 1,
                 trace := s.trace ++ [Syscall.recv len (len : Int)] }⟩ := by
  unfold recv
  subst hlen
  simp [hopen, hplan, hin, Nat.min_eq_right hk]

theorem toInt32_of_small (n : Nat) (h : n ≤ MAX_XFER) : toInt32 (n : Int) = (n : Int) := by
  unfold MAX_XFER at h
  unfold toInt32
  have h1 : ((n : Int) % 4294967296) = (n : Int) := by omega
  simp only [h1]
  split
  · rfl
  · omega

theorem send_of_open (env : Env) (s : Sock) (buf : List Nat) (k : Nat)
    (hopen : s.closed = false) (hplan : env.sendPlan s.sends = Xfer.upTo k) :
    send env s buf =
      ⟨(min k (min buf.length MAX_XFER) : Nat),
        { s with outbound := s.outbound ++ buf.take (min k (min buf.length MAX_XFER)),
                 sends := s.sends + 1,
                 trace := s.trace ++
                   [Syscall.send buf.length (min k (min buf.length MAX_XFER) : Nat)] }⟩ := by
  unfold send
  simp [hopen, hplan]

theorem failedSends_append (t u : List Syscall) :
    failedSends (t ++ u) = failedSends t + failedSends u := by
  induction t with
  | nil => simp [failedSends]
  | cons e t ih =>
    cases e <;> simp [failedSends, ih]
    omega

theorem toInt32_neg_one : toInt32 (-1) = -1 := by
  unfold toInt32
  norm_num

theorem send_ret_cases (env : Env) (s : Sock) (buf : List Nat) :
    ((send env s buf).ret = -1 ∧ (send env s buf).sock.outbound = s.outbound ∧
      (send env s buf).sock.trace = s.trace ++ [Syscall.send buf.length (-1)]) ∨
    (∃ n : Nat, n ≤ buf.length ∧ n ≤ MAX_XFER ∧ (send env s buf).ret = (n : Int) ∧
      (send env s buf).sock.outbound = s.outbound ++ buf.take n ∧
      (send env s buf).sock.trace = s.trace ++ [Syscall.send buf.length (n : Int)]) := by
  unfold send
  split
  · left; exact ⟨rfl, rfl, rfl⟩
  · split
    · left; exact ⟨rfl, rfl, rfl⟩
    · rename_i k _
      right
      exact ⟨min k (min buf.length MAX_XFER), by omega, by omega, rfl, rfl, rfl⟩

/-! ## The readers -/

/-- A length byte that the transport delivers is the declared length, and
the stream then stands right behind it. -/
theorem declared_count_stream (env : Env) (s : Sock) (b k : Nat) (rest : List Nat)
    (hopen : s.closed = false) (hplan : env.recvPlan s.recvs = Xfer.upTo k) (hk : 1 ≤ k)
    (hin : s.inbound = b :: rest) :
    declared_count env s = b % 256 ∧ (recv env s 1).sock.inbound = rest := by
  unfold declared_count
  rw [recv_deliver env s 1 k [b] rest hopen hplan hk (by simp [hin]) rfl]
  simp [firstOr]

/-- C4 (oversize rejection).  `read_bytecount_buffer` returns false exactly
when the declared length, the value of its `count` after the first `recv`, is
at least `max_length`; and when it returns false the destination is unchanged,
the stream is where the `recv` of the length byte left it, and that `recv` is
the only one made.  The declared length is the first byte of the stream
whenever the transport delivers it, and then a rejection leaves all bytes
behind the length byte in the stream. -/
theorem read_bytecount_buffer_rejects_iff (env : Env) (s : Sock) (dst : List Nat)
    (max_length : Nat) :
    ((read_bytecount_buffer env s dst max_length).ok = false ↔
        max_length ≤ declared_count env s) ∧
    ((read_bytecount_buffer env s dst max_length).ok = false →
        (read_bytecount_buffer env s dst max_length).dst = dst ∧
        (read_bytecount_buffer env s dst max_length).sock.inbound = (recv env s 1).sock.inbound ∧
        (read_bytecount_buffer env s dst max_length).sock.recvs = s.recvs + 1) ∧
    (∀ (b k : Nat) (rest : List Nat), s.closed = false → env.recvPlan s.recvs = Xfer.upTo k →
        1 ≤ k → s.inbound = b :: rest →
        ((read_bytecount_buffer env s dst max_length).ok = false ↔ max_length ≤ b % 256) ∧
        ((read_bytecount_buffer env s dst max_length).ok = false →
          (read_bytecount_buffer env s dst max_length).sock.inbound = rest)) := by
  have hiff : (read_bytecount_buffer env s dst max_length).ok = false ↔
      max_length ≤ declared_count env s := by
    unfold read_bytecount_buffer declared_count
    by_cases h : max_length ≤ firstOr 0 (recv env s 1).data % 256
    · simp [h]
    · simp [h]
  have hframe : (read_bytecount_buffer env s dst max_length).ok = false →
      (read_bytecount_buffer env s dst max_length).dst = dst ∧
      (read_bytecount_buffer env s dst max_length).sock.inbound = (recv env s 1).sock.inbound ∧
      (read_bytecount_buffer env s dst max_length).sock.recvs = s.recvs + 1 := by
    unfold read_bytecount_buffer
    by_cases h : max_length ≤ firstOr 0 (recv env s 1).data % 256
    · simp [h, close_socket, recv_recvs]
    · simp [h]
  refine ⟨hiff, hframe, ?_⟩
  intro b k rest hopen hplan hk hin
  obtain ⟨hd, hr⟩ := declared_count_stream env s b k rest hopen hplan hk hin
  refine ⟨by rw [hiff, hd], fun hfalse => ?_⟩
  rw [(hframe hfalse).2.1, hr]

/-- C5 (peer close in the middle of a frame).  When the `recv` of the length
byte delivers nothing, `read_bytecount_buffer` with a positive `max_length`
returns true and leaves the destination as it was: the closed connection is
taken for an empty field. -/
theorem read_bytecount_buffer_accepts_missing_length (env : Env) (s : Sock) (dst : List Nat)
    (max_length : Nat) (hnone : (recv env s 1).data = []) (hmax : 0 < max_length) :
    (read_bytecount_buffer env s dst max_length).ok = true ∧
    (read_bytecount_buffer env s dst max_length).dst = dst := by
  have h : ¬ (firstOr 0 (recv env s 1).data % 256 ≥ max_length) := by
    rw [hnone]; simp [firstOr]; omega
  unfold read_bytecount_buffer
  simp only [if_neg h, true_and]
  have hlen := recv_data_length_le env (recv env s 1).sock (firstOr 0 (recv env s 1).data % 256)
  rw [hnone] at hlen
  simp [firstOr] at hlen
  rw [hnone]
  simp [firstOr, hlen, store]

theorem read_bytecount_buffer_accepts_missing_length_witness :
    (recv (chunked 1 1) (fresh []) 1).data = [] ∧ 0 < 256 ∧
    (read_bytecount_buffer (chunked 1 1) (fresh []) [9, 9, 9] 256).ok = true ∧
    (read_bytecount_buffer (chunked 1 1) (fresh []) [9, 9, 9] 256).dst = [9, 9, 9] :=
  ⟨by decide, by decide,
    read_bytecount_buffer_accepts_missing_length (chunked 1 1) (fresh []) [9, 9, 9] 256
      (by decide) (by decide)⟩

/-- The same for the body of a field: the peer sends the length byte 5 and
closes; `read_bytecount_buffer` returns true with nothing stored. -/
theorem read_bytecount_buffer_accepts_missing_body :
    (read_bytecount_buffer (chunked 1 8) (fresh [5]) [9, 9, 9, 9, 9, 9] 256).ok = true ∧
    (read_bytecount_buffer (chunked 1 8) (fresh [5]) [9, 9, 9, 9, 9, 9] 256).dst
      = [9, 9, 9, 9, 9, 9] := by
  decide

/-- C9 (exact byte counts of the 32-bit prefixed read).  The peer sends the
prefix 0 0 0 2 and the payload 7 9.  When the second `recv` delivers one byte,
`read_intcount_buffer` returns a buffer and sets `*count` to 2, but only the
first byte of the buffer comes from the stream, the second is what `malloc`
left there.  When already the first `recv` delivers one byte, `*count` mixes
that byte with the three bytes `*count` held before (here 0 0 1): the function
sets `*count` to 1 and returns the second byte of the prefix as the payload. -/
theorem read_intcount_buffer_short_read (g : Nat → Nat) :
    (read_intcount_buffer (shortReads g) (fresh [0, 0, 0, 2, 7, 9]) [0, 0, 0, 0]).bytes
      = some [7, g 1] ∧
    (read_intcount_buffer (shortReads g) (fresh [0, 0, 0, 2, 7, 9]) [0, 0, 0, 0]).count
      = some 2 ∧
    (read_intcount_buffer (chunked 1 1) (fresh [0, 0, 0, 2, 7, 9]) [0, 0, 0, 1]).bytes
      = some [0] ∧
    (read_intcount_buffer (chunked 1 1) (fresh [0, 0, 0, 2, 7, 9]) [0, 0, 0, 1]).count
      = some 1 := by
  refine ⟨?_, ?_, by decide, by decide⟩ <;>
  simp [read_intcount_buffer, recv, shortReads, fresh, store, ntohl, beValue, malloc,
    List.range_succ]

theorem htonl_eq_wire_u32 (n : Nat) (h : n < 4294967296) : htonl n = wire_u32 n := by
  have e255 : (255 : Nat) = 2 ^ 8 - 1 := by norm_num
  have h24 : n >>> 24 = n / 16777216 % 256 := by
    rw [Nat.shiftRight_eq_div_pow]
    have : n / 2 ^ 24 < 256 := by
      rw [Nat.div_lt_iff_lt_mul (by norm_num)]; omega
    norm_num at this ⊢
    omega
  simp only [htonl, wire_u32, Nat.mod_eq_of_lt h, h24]
  rw [e255, Nat.and_pow_two_sub_one_eq_mod, Nat.and_pow_two_sub_one_eq_mod,
    Nat.and_pow_two_sub_one_eq_mod, Nat.shiftRight_eq_div_pow, Nat.shiftRight_eq_div_pow]

/-- Reading the command byte of a stream. -/
theorem read_command_stream (c : Commands) (env : Env) (s : Sock) (b : Nat) (rest : List Nat)
    (hopen : s.closed = false) (hplan : ∀ i, ∃ k, env.recvPlan i = Xfer.upTo k ∧ 1 ≤ k)
    (hin : s.inbound = b :: rest) (hb : b < 256) :
    (read_command c env s).1 = b ∧ (read_command c env s).2.inbound = rest ∧
    (read_command c env s).2.closed = false := by
  obtain ⟨k, hk, hk1⟩ := hplan s.recvs
  unfold read_command
  rw [recv_deliver env s 1 k [b] rest hopen hk hk1 (by simp [hin]) rfl]
  simp [firstOr, Nat.mod_eq_of_lt hb, hopen]

/-- Reading a string field of a stream into `dst`. -/
theorem read_bytecount_buffer_stream (env : Env) (s : Sock) (dst str rest : List Nat)
    (max_length : Nat) (hopen : s.closed = false)
    (hplan : ∀ i, ∃ k, env.recvPlan i = Xfer.upTo k ∧ 1 ≤ k ∧ str.length ≤ k)
    (hin : s.inbound = wire_string str ++ rest) (hlen : str.length < 256)
    (hmax : str.length < max_length) :
    (read_bytecount_buffer env s dst max_length).ok = true ∧
    (read_bytecount_buffer env s dst max_length).dst = store dst str ∧
    (read_bytecount_buffer env s dst max_length).sock.inbound = rest ∧
    (read_bytecount_buffer env s dst max_length).sock.closed = false := by
  obtain ⟨k, hk, hk1, _⟩ := hplan s.recvs
  obtain ⟨k2, hk2, _, hk2l⟩ := hplan (s.recvs + 1)
  unfold read_bytecount_buffer
  rw [recv_deliver env s 1 k [str.length] (str ++ rest) hopen hk hk1
    (by simp [hin, wire_string]) rfl]
  simp only [firstOr, Nat.mod_eq_of_lt hlen]
  rw [if_neg (by omega)]
  rw [recv_deliver env _ str.length k2 str rest ?_ ?_ hk2l ?_ rfl]
  · simp [hopen]
  · exact hopen
  · exact hk2
  · rfl

theorem beValue_htonl (n : Nat) (h : n < 4294967296) : beValue (htonl n) = n := by
  simp only [htonl, beValue, List.foldl, Nat.mod_eq_of_lt h]
  omega

theorem malloc_length (env : Env) (n : Nat) : (malloc env n).length = n := by
  simp [malloc]

/-- Reading a payload field of at least one byte from a stream. -/
theorem read_intcount_buffer_stream (env : Env) (s : Sock) (count_mem payload rest : List Nat)
    (hopen : s.closed = false)
    (hplan : ∀ i, ∃ k, env.recvPlan i = Xfer.upTo k ∧ 4 ≤ k ∧ payload.length ≤ k)
    (hin : s.inbound = wire_payload payload ++ rest)
    (h1 : 1 ≤ payload.length) (h32 : payload.length < 4294967296) :
    (read_intcount_buffer env s count_mem).bytes = some payload ∧
    (read_intcount_buffer env s count_mem).count = some payload.length ∧
    (read_intcount_buffer env s count_mem).sock.inbound = rest := by
  obtain ⟨k, hk, hk4, _⟩ := hplan s.recvs
  obtain ⟨k2, hk2, _, hk2l⟩ := hplan (s.recvs + 1)
  have hcount : ntohl (store count_mem (htonl payload.length)) = payload.length := by
    have : (store count_mem (htonl payload.length)).take 4 = htonl payload.length := by
      simp [store, htonl]
    rw [ntohl, this, beValue_htonl _ h32, Nat.mod_eq_of_lt h32]
  unfold read_intcount_buffer
  rw [recv_deliver env s 4 k (htonl payload.length) (payload ++ rest) hopen hk hk4
    (by simp [hin, wire_payload, htonl_eq_wire_u32 _ h32]) (by simp [htonl])]
  simp only [hcount]
  rw [if_neg (by norm_num)]
  rw [recv_deliver env _ payload.length k2 payload rest ?_ ?_ hk2l ?_ rfl]
  · rw [if_neg (by simp only [not_le]; omega)]
    simp [store, malloc_length]
  · exact hopen
  · exact hk2
  · rfl

/-- C2 (round trip of the payload field).  Whenever `read_intcount_buffer`
has set `*count` to 0, it returns NULL: the `recv` of zero bytes returns no
more than 0, which the function takes for a closed connection.  So the empty
payload that `send_message` and `send_reply` accept does not come back. -/
theorem read_intcount_buffer_empty_payload (env : Env) (s : Sock) (count_mem : List Nat)
    (h : (read_intcount_buffer env s count_mem).count = some 0) :
    (read_intcount_buffer env s count_mem).bytes = none := by
  unfold read_intcount_buffer at h ⊢
  by_cases h1 : (recv env s 4).ret ≤ 0
  · simp only [if_pos h1]
  · simp only [if_neg h1] at h ⊢
    by_cases h2 : (recv env (recv env s 4).sock
        (ntohl (store count_mem (recv env s 4).data))).ret ≤ 0
    · simp only [if_pos h2]
    · exfalso
      simp only [if_neg h2, Option.some.injEq] at h
      rw [h] at h2
      exact h2 (recv_ret_le env _ 0)

theorem read_intcount_buffer_empty_payload_witness :
    (read_intcount_buffer (chunked 8 8) (fresh [0, 0, 0, 0]) [0, 0, 0, 0]).count = some 0 ∧
    (read_intcount_buffer (chunked 8 8) (fresh [0, 0, 0, 0]) [0, 0, 0, 0]).bytes = none :=
  ⟨by decide, read_intcount_buffer_empty_payload (chunked 8 8) (fresh [0, 0, 0, 0]) [0, 0, 0, 0]
    (by decide)⟩

/-! ## The write loop -/

/-- Effect of `send_buffer` on a socket when no `send` fails and each accepts
at least one byte. -/
theorem send_buffer_all (env : Env) (hplan : ∀ i, ∃ k, env.sendPlan i = Xfer.upTo k ∧ 1 ≤ k) :
    ∀ (fuel : Nat) (s : Sock) (bytes : List Nat), s.closed = false → bytes.length ≤ fuel →
      ∃ s', send_buffer env fuel s bytes = Except.ok s' ∧
        s'.outbound = s.outbound ++ bytes ∧ s'.inbound = s.inbound ∧
        s'.recvs = s.recvs ∧ s'.closed = false ∧ s.sends ≤ s'.sends ∧
        s'.sends ≤ s.sends + bytes.length := by
  intro fuel
  induction fuel with
  | zero =>
    intro s bytes hopen hlen
    have hb : bytes = [] := List.length_eq_zero.mp (Nat.le_zero.mp hlen)
    subst hb
    exact ⟨s, by simp [send_buffer], by simp, rfl, rfl, hopen, le_refl _, by simp⟩
  | succ fuel ih =>
    intro s bytes hopen hlen
    by_cases hb : bytes.length > 0
    · obtain ⟨k, hk, hk1⟩ := hplan s.sends
      have hn1 : 1 ≤ min k (min bytes.length MAX_XFER) := by
        unfold MAX_XFER; omega
      have hnM : min k (min bytes.length MAX_XFER) ≤ MAX_XFER := by omega
      have hnl : min k (min bytes.length MAX_XFER) ≤ bytes.length := by omega
      have hcast := toInt32_of_small _ hnM
      have hnot : ¬ ((min k (min bytes.length MAX_XFER) : Nat) : Int) < 0 := by omega
      obtain ⟨s', hs', hout, hin, hrecvs, hclosed, hle, hle2⟩ :=
        ih { s with outbound := s.outbound ++ bytes.take (min k (min bytes.length MAX_XFER)),
                    sends := s.sends + 1,
                    trace := s.trace ++
                      [Syscall.send bytes.length (min k (min bytes.length MAX_XFER) : Nat)] }
          (bytes.drop (min k (min bytes.length MAX_XFER))) hopen
          (by simp only [List.length_drop]; omega)
      refine ⟨s', ?_, ?_, hin, hrecvs, hclosed, ?_, ?_⟩
      · rw [send_buffer, if_pos hb, send_of_open env s bytes k hopen hk]
        simp only [hcast, if_neg hnot, Int.toNat_ofNat]
        exact hs'
      · rw [hout]
        simp only [List.append_assoc, List.take_append_drop]
      · simp only at hle; omega
      · simp only [List.length_drop] at hle2; omega
    · have hb0 : bytes = [] := List.length_eq_zero.mp (by omega)
      subst hb0
      exact ⟨s, by simp [send_buffer], by simp, rfl, rfl, hopen, le_refl _, by simp⟩

/-- What a finished run of `send_buffer` leaves on the connection. -/
theorem send_buffer_outcome (env : Env) :
    ∀ (fuel : Nat) (s s' : Sock) (bytes : List Nat),
      send_buffer env fuel s bytes = Except.ok s' →
      (s'.outbound = s.outbound ++ bytes ↔ failedSends s'.trace = failedSends s.trace) ∧
      ∃ n, n ≤ bytes.length ∧ s'.outbound = s.outbound ++ bytes.take n := by
  intro fuel
  induction fuel with
  | zero =>
    intro s s' bytes h
    unfold send_buffer at h
    split at h
    · simp at h
    · rename_i hb
      have hb0 : bytes = [] := List.length_eq_zero.mp (by omega)
      simp only [Except.ok.injEq] at h
      subst h; subst hb0
      exact ⟨by simp, 0, by simp, by simp⟩
  | succ fuel ih =>
    intro s s' bytes h
    unfold send_buffer at h
    split at h
    · rename_i hb
      simp only [] at h
      rcases send_ret_cases env s bytes with ⟨hret, hout, htr⟩ | ⟨n, hn, hnM, hret, hout, htr⟩
      · rw [hret, toInt32_neg_one] at h
        simp only [Int.reduceNeg, Left.neg_neg_iff, zero_lt_one, ↓reduceIte, Except.ok.injEq] at h
        subst h
        refine ⟨?_, 0, by omega, by simp [hout]⟩
        rw [hout, htr, failedSends_append]
        constructor
        · intro h2
          have h3 : bytes = [] := by simpa using h2
          rw [h3] at hb
          simp at hb
        · intro h2
          simp [failedSends] at h2
      · rw [hret, toInt32_of_small n hnM] at h
        have hnot : ¬ ((n : Int) < 0) := by omega
        simp only [if_neg hnot, Int.toNat_ofNat] at h
        obtain ⟨hiff, m, hm, hout'⟩ := ih _ _ _ h
        rw [hout, htr, failedSends_append] at hiff
        have hf : failedSends [Syscall.send bytes.length (n : Int)] = 0 := by
          simp [failedSends, hnot]
        rw [hf, List.append_assoc, List.take_append_drop] at hiff
        refine ⟨by simpa using hiff, n + m, ?_, ?_⟩
        · simp only [List.length_drop] at hm; omega
        · rw [hout', hout, List.append_assoc, List.take_add]
    · simp only [Except.ok.injEq] at h
      subst h
      rename_i hb
      have hb0 : bytes = [] := List.length_eq_zero.mp (by omega)
      subst hb0
      exact ⟨by simp, 0, by simp, by simp⟩

/-- C6 (partial sends).  On an open socket whose transport accepts at least
one byte in every `send` call, `send_buffer` returns within as many
iterations as the buffer has bytes, and the bytes accepted over all its calls
are the buffer, byte for byte, however the transport splits them. -/
theorem send_buffer_partial_sends (env : Env) (s : Sock) (bytes : List Nat)
    (hopen : s.closed = false)
    (hplan : ∀ i, ∃ k, env.sendPlan i = Xfer.upTo k ∧ 1 ≤ k) :
    ∃ s', send_buffer env bytes.length s bytes = Except.ok s' ∧
      s'.outbound = s.outbound ++ bytes := by
  obtain ⟨s', h, hout, _⟩ := send_buffer_all env hplan bytes.length s bytes hopen (le_refl _)
  exact ⟨s', h, hout⟩

theorem send_buffer_partial_sends_witness :
    (fresh []).closed = false ∧
    (∀ i, ∃ k, (chunked 1 1).sendPlan i = Xfer.upTo k ∧ 1 ≤ k) ∧
    ∃ s', send_buffer (chunked 1 1) [7, 8, 9].length (fresh []) [7, 8, 9] = Except.ok s' ∧
      s'.outbound = (fresh []).outbound ++ [7, 8, 9] :=
  ⟨rfl, fun _ => ⟨1, rfl, le_refl 1⟩,
    send_buffer_partial_sends (chunked 1 1) (fresh []) [7, 8, 9] rfl
      (fun _ => ⟨1, rfl, le_refl 1⟩)⟩

/-- C8, as stated, fails: no reading of the value `send_buffer` returns tells
a run in which a `send` failed from one in which none did. -/
theorem send_buffer_result_tells_nothing :
    ¬ ∃ report : Unit → Bool, ∀ (env : Env) (fuel : Nat) (s s' : Sock) (bytes : List Nat),
        send_buffer env fuel s bytes = Except.ok s' →
        (report (send_buffer_result env fuel s bytes) = true ↔
          failedSends s.trace < failedSends s'.trace) := by
  rintro ⟨report, h⟩
  have hgood := h (chunked 1 1) 1 (fresh []) ⟨[], [7], 0, 1, false, [Syscall.send 1 1]⟩ [7] rfl
  have hbad := h failing 1 (fresh []) ⟨[], [], 0, 1, false, [Syscall.send 1 (-1)]⟩ [7] rfl
  simp [send_buffer_result, failedSends, fresh] at hgood hbad
  rw [hbad] at hgood
  exact absurd hgood (by decide)

/-- C8, amended.  `send_buffer` returns no value.  A failed `send` shows only
on the connection: when `send_buffer` has returned, the bytes accepted are a
leading part of the buffer, and they are the whole buffer exactly when none of
its `send` calls returned an error. -/
theorem send_buffer_silent_failure (env : Env) (fuel : Nat) (s s' : Sock) (bytes : List Nat)
    (h : send_buffer env fuel s bytes = Except.ok s') :
    send_buffer_result env fuel s bytes = () ∧
    (s'.outbound = s.outbound ++ bytes ↔ failedSends s'.trace = failedSends s.trace) ∧
    ∃ n, n ≤ bytes.length ∧ s'.outbound = s.outbound ++ bytes.take n :=
  ⟨rfl, send_buffer_outcome env fuel s s' bytes h⟩

theorem send_buffer_silent_failure_witness :
    send_buffer failing 1 (fresh []) [7] = Except.ok ⟨[], [], 0, 1, false, [Syscall.send 1 (-1)]⟩ ∧
    send_buffer_result failing 1 (fresh []) [7] = () ∧
    (([] : List Nat) = (fresh []).outbound ++ [7] ↔
      failedSends [Syscall.send 1 (-1)] = failedSends (fresh []).trace) ∧
    ∃ n, n ≤ [7].length ∧ ([] : List Nat) = (fresh []).outbound ++ [7].take n :=
  ⟨rfl, send_buffer_silent_failure failing 1 (fresh [])
    ⟨[], [], 0, 1, false, [Syscall.send 1 (-1)]⟩ [7] rfl⟩

/-! ## The encoders -/

theorem put_ok (b : Scratch) (x : Nat) (h : b.data.length < 512) :
    b.put x = Except.ok ⟨b.data ++ [x % 256]⟩ := by
  simp [Scratch.put, Scratch.idx, BUFFER_SIZE, h]

theorem memcpy_ok (b : Scratch) (src : List Nat) (n : Nat) (h : b.data.length + n ≤ 512) :
    b.memcpy src n = Except.ok ⟨b.data ++ src.take n⟩ := by
  simp [Scratch.memcpy, Scratch.idx, BUFFER_SIZE, h]

theorem memcpy_overflow (b : Scratch) (src : List Nat) (n : Nat) (h : 512 < b.data.length + n)
    (hidx : b.data.length ≤ 512) :
    b.memcpy src n = Except.error (Fault.outOfBounds 512) := by
  simp [Scratch.memcpy, Scratch.idx, BUFFER_SIZE, h, hidx]

theorem send_create_actor_fits (c : Commands) (env : Env) (fuel : Nat) (s : Sock)
    (actorUUID actorType : List Nat)
    (hfit : actorUUID.length % 256 + actorType.length % 256 ≤ 509) :
    send_create_actor c env fuel s actorUUID actorType =
      send_buffer env fuel s
        ([c.COMMAND_CREATE_ACTOR % 256, actorUUID.length % 256 % 256] ++
          actorUUID.take (actorUUID.length % 256) ++
          [actorType.length % 256 % 256] ++ actorType.take (actorType.length % 256)) := by
  have h1 : min (actorUUID.length % 256) actorUUID.length = actorUUID.length % 256 :=
    Nat.min_eq_left (Nat.mod_le _ _)
  have ha : actorUUID.length % 256 < 256 := Nat.mod_lt _ (by norm_num)
  have hb : actorType.length % 256 < 256 := Nat.mod_lt _ (by norm_num)
  simp only [send_create_actor, bind, Except.bind]
  rw [put_ok _ _ (by simp)]
  simp only []
  rw [put_ok _ _ (by simp)]
  simp only []
  rw [memcpy_ok _ _ _ (by simp; omega)]
  simp only []
  rw [put_ok _ _ (by simp [h1]; omega)]
  simp only []
  rw [memcpy_ok _ _ _ (by simp [h1]; omega)]
  simp

theorem send_create_actor_overflow (c : Commands) (env : Env) (fuel : Nat) (s : Sock)
    (actorUUID actorType : List Nat)
    (hbig : 509 < actorUUID.length % 256 + actorType.length % 256) :
    send_create_actor c env fuel s actorUUID actorType =
      Except.error (Fault.outOfBounds 512) := by
  have h1 : min (actorUUID.length % 256) actorUUID.length = actorUUID.length % 256 :=
    Nat.min_eq_left (Nat.mod_le _ _)
  have ha : actorUUID.length % 256 < 256 := Nat.mod_lt _ (by norm_num)
  have hb : actorType.length % 256 < 256 := Nat.mod_lt _ (by norm_num)
  simp only [send_create_actor, bind, Except.bind]
  rw [put_ok _ _ (by simp)]
  simp only []
  rw [put_ok _ _ (by simp)]
  simp only []
  rw [memcpy_ok _ _ _ (by simp; omega)]
  simp only []
  rw [put_ok _ _ (by simp [h1]; omega)]
  simp only []
  rw [memcpy_overflow _ _ _ (by simp [h1]; omega) (by simp [h1]; omega)]

theorem send_buffer_not_oob (env : Env) (i : Nat) :
    ∀ (fuel : Nat) (s : Sock) (bytes : List Nat),
      send_buffer env fuel s bytes ≠ Except.error (Fault.outOfBounds i) := by
  intro fuel
  induction fuel with
  | zero =>
    intro s bytes
    unfold send_buffer
    split <;> simp
  | succ fuel ih =>
    intro s bytes
    unfold send_buffer
    split
    · simp only []
      split
      · simp
      · exact ih _ _
    · simp

theorem send_version_check_eq (c : Commands) (BUILD_VERSION_UUID : List Nat) (env : Env)
    (fuel : Nat) (s : Sock) :
    send_version_check c BUILD_VERSION_UUID env fuel s =
      send_buffer env fuel s
        ([c.COMMAND_VERSION_CHECK % 256, BUILD_VERSION_UUID.length % 256 % 256] ++
          BUILD_VERSION_UUID.take (BUILD_VERSION_UUID.length % 256)) := by
  have ha : BUILD_VERSION_UUID.length % 256 < 256 := Nat.mod_lt _ (by norm_num)
  simp only [send_version_check, bind, Except.bind]
  rw [put_ok _ _ (by simp only [List.length_replicate]; norm_num)]
  simp only []
  rw [put_ok _ _ (by simp only [List.length_replicate]; norm_num)]
  simp only []
  rw [memcpy_ok _ _ _ (by simp; omega)]
  simp

theorem send_destroy_actor_eq (c : Commands) (env : Env) (fuel : Nat) (s : Sock)
    (actorUUID : List Nat) :
    send_destroy_actor c env fuel s actorUUID =
      send_buffer env fuel s
        ([c.COMMAND_DESTROY_ACTOR % 256, actorUUID.length % 256 % 256] ++
          actorUUID.take (actorUUID.length % 256)) := by
  have ha : actorUUID.length % 256 < 256 := Nat.mod_lt _ (by norm_num)
  simp only [send_destroy_actor, bind, Except.bind]
  rw [put_ok _ _ (by simp only [List.length_replicate]; norm_num)]
  simp only []
  rw [put_ok _ _ (by simp only [List.length_replicate]; norm_num)]
  simp only []
  rw [memcpy_ok _ _ _ (by simp; omega)]
  simp

theorem send_reply_eq (c : Commands) (env : Env) (fuel : Nat) (s : Sock)
    (actorUUID bytes : List Nat) (count : Nat) :
    send_reply c env fuel s actorUUID bytes count =
      (send_buffer env fuel s
        ([c.COMMAND_SEND_REPLY % 256, actorUUID.length % 256 % 256] ++
          actorUUID.take (actorUUID.length % 256))).bind
        (fun s1 => send_buffer env fuel (send env s1 (htonl (count % 4294967296))).sock
          (bytes.take (count % 4294967296))) := by
  have ha : actorUUID.length % 256 < 256 := Nat.mod_lt _ (by norm_num)
  simp only [send_reply, bind]
  rw [put_ok _ _ (by simp only [List.length_replicate]; norm_num)]
  simp only [Except.bind]
  rw [put_ok _ _ (by simp only [List.length_replicate]; norm_num)]
  simp only []
  rw [memcpy_ok _ _ _ (by simp; omega)]
  simp

theorem send_message_fits (c : Commands) (env : Env) (fuel : Nat) (s : Sock)
    (actorUUID behaviorType bytes : List Nat) (count : Nat)
    (hfit : actorUUID.length % 256 + behaviorType.length % 256 ≤ 509) :
    send_message c env fuel s actorUUID behaviorType bytes count =
      (send_buffer env fuel s
        ([c.COMMAND_SEND_MESSAGE % 256, actorUUID.length % 256 % 256] ++
          actorUUID.take (actorUUID.length % 256) ++
          [behaviorType.length % 256 % 256] ++
          behaviorType.take (behaviorType.length % 256))).bind
        (fun s1 => send_buffer env fuel (send env s1 (htonl (count % 4294967296))).sock
          (bytes.take (count % 4294967296))) := by
  have h1 : min (actorUUID.length % 256) actorUUID.length = actorUUID.length % 256 :=
    Nat.min_eq_left (Nat.mod_le _ _)
  have ha : actorUUID.length % 256 < 256 := Nat.mod_lt _ (by norm_num)
  have hb : behaviorType.length % 256 < 256 := Nat.mod_lt _ (by norm_num)
  simp only [send_message, bind]
  rw [put_ok _ _ (by simp only [List.length_replicate]; norm_num)]
  simp only [Except.bind]
  rw [put_ok _ _ (by simp only [List.length_replicate]; norm_num)]
  simp only []
  rw [memcpy_ok _ _ _ (by simp; omega)]
  simp only []
  rw [put_ok _ _ (by simp [h1]; omega)]
  simp only []
  rw [memcpy_ok _ _ _ (by simp [h1]; omega)]
  simp

theorem send_message_overflow (c : Commands) (env : Env) (fuel : Nat) (s : Sock)
    (actorUUID behaviorType bytes : List Nat) (count : Nat)
    (hbig : 509 < actorUUID.length % 256 + behaviorType.length % 256) :
    send_message c env fuel s actorUUID behaviorType bytes count =
      Except.error (Fault.outOfBounds 512) := by
  have h1 : min (actorUUID.length % 256) actorUUID.length = actorUUID.length % 256 :=
    Nat.min_eq_left (Nat.mod_le _ _)
  have ha : actorUUID.length % 256 < 256 := Nat.mod_lt _ (by norm_num)
  have hb : behaviorType.length % 256 < 256 := Nat.mod_lt _ (by norm_num)
  simp only [send_message, bind]
  rw [put_ok _ _ (by simp only [List.length_replicate]; norm_num)]
  simp only [Except.bind]
  rw [put_ok _ _ (by simp only [List.length_replicate]; norm_num)]
  simp only []
  rw [memcpy_ok _ _ _ (by simp; omega)]
  simp only []
  rw [put_ok _ _ (by simp [h1]; omega)]
  simp only []
  rw [memcpy_overflow _ _ _ (by simp [h1]; omega) (by simp [h1]; omega)]

/-- The bytes `send_reply` hands to the connection when no `send` fails and
each accepts at least one byte: the header, then as much of the four length
bytes as the single `send` that carries them accepts, then the payload. -/
theorem send_reply_progress (c : Commands) (env : Env) (fuel : Nat) (s : Sock)
    (actorUUID bytes : List Nat) (count : Nat)
    (hopen : s.closed = false) (hplan : ∀ i, ∃ k, env.sendPlan i = Xfer.upTo k ∧ 1 ≤ k)
    (hfuel : 257 ≤ fuel) (hcount : count % 4294967296 ≤ fuel) :
    ∃ s' j k, env.sendPlan j = Xfer.upTo k ∧
      send_reply c env fuel s actorUUID bytes count = Except.ok s' ∧
      s'.outbound = s.outbound ++
        ([c.COMMAND_SEND_REPLY % 256, actorUUID.length % 256] ++
          actorUUID.take (actorUUID.length % 256)) ++
        (htonl count).take k ++ bytes.take (count % 4294967296) ∧
      s'.inbound = s.inbound ∧ s'.closed = false := by
  have ha : actorUUID.length % 256 < 256 := Nat.mod_lt _ (by norm_num)
  obtain ⟨s1, hs1, hout1, hin1, _, hclosed1, _, _⟩ :=
    send_buffer_all env hplan fuel s
      ([c.COMMAND_SEND_REPLY % 256, actorUUID.length % 256 % 256] ++
        actorUUID.take (actorUUID.length % 256)) hopen (by simp; omega)
  obtain ⟨k, hk, _⟩ := hplan s1.sends
  obtain ⟨s2, hs2, hout2, hin2, _, hclosed2, _, _⟩ :=
    send_buffer_all env hplan fuel (send env s1 (htonl (count % 4294967296))).sock
      (bytes.take (count % 4294967296))
      (by rw [send_of_open env s1 _ k hclosed1 hk]; exact hclosed1)
      (by simp only [List.length_take]; omega)
  refine ⟨s2, s1.sends, k, hk, ?_, ?_, ?_, hclosed2⟩
  · rw [send_reply_eq, hs1]
    exact hs2
  · rw [hout2, send_of_open env s1 _ k hclosed1 hk]
    simp only [hout1]
    have h4 : min k (min (htonl (count % 4294967296)).length MAX_XFER) = min k 4 := by
      simp [htonl, MAX_XFER]
    have hh : htonl (count % 4294967296) = htonl count := by simp [htonl]
    rw [h4, hh]
    have ht : List.take (min k 4) (htonl count) = List.take k (htonl count) := by
      rw [List.take_eq_take]; simp [htonl]
    rw [ht]
    simp
  · rw [hin2, send_of_open env s1 _ k hclosed1 hk]
    exact hin1

/-- The bytes `send_message` hands to the connection when the header fits
the scratch array, no `send` fails and each accepts at least one byte. -/
theorem send_message_progress (c : Commands) (env : Env) (fuel : Nat) (s : Sock)
    (actorUUID behaviorType bytes : List Nat) (count : Nat)
    (hopen : s.closed = false) (hplan : ∀ i, ∃ k, env.sendPlan i = Xfer.upTo k ∧ 1 ≤ k)
    (hfit : actorUUID.length % 256 + behaviorType.length % 256 ≤ 509)
    (hfuel : 512 ≤ fuel) (hcount : count % 4294967296 ≤ fuel) :
    ∃ s' j k, env.sendPlan j = Xfer.upTo k ∧
      send_message c env fuel s actorUUID behaviorType bytes count = Except.ok s' ∧
      s'.outbound = s.outbound ++
        ([c.COMMAND_SEND_MESSAGE % 256, actorUUID.length % 256] ++
          actorUUID.take (actorUUID.length % 256) ++
          [behaviorType.length % 256] ++ behaviorType.take (behaviorType.length % 256)) ++
        (htonl count).take k ++ bytes.take (count % 4294967296) ∧
      s'.inbound = s.inbound ∧ s'.closed = false := by
  have h1 : min (actorUUID.length % 256) actorUUID.length = actorUUID.length % 256 :=
    Nat.min_eq_left (Nat.mod_le _ _)
  have h2 : min (behaviorType.length % 256) behaviorType.length = behaviorType.length % 256 :=
    Nat.min_eq_left (Nat.mod_le _ _)
  obtain ⟨s1, hs1, hout1, hin1, _, hclosed1, _, _⟩ :=
    send_buffer_all env hplan fuel s
      ([c.COMMAND_SEND_MESSAGE % 256, actorUUID.length % 256 % 256] ++
        actorUUID.take (actorUUID.length % 256) ++
        [behaviorType.length % 256 % 256] ++ behaviorType.take (behaviorType.length % 256))
      hopen (by simp [h1, h2]; omega)
  obtain ⟨k, hk, _⟩ := hplan s1.sends
  obtain ⟨s2, hs2, hout2, hin2, _, hclosed2, _, _⟩ :=
    send_buffer_all env hplan fuel (send env s1 (htonl (count % 4294967296))).sock
      (bytes.take (count % 4294967296))
      (by rw [send_of_open env s1 _ k hclosed1 hk]; exact hclosed1)
      (by simp only [List.length_take]; omega)
  refine ⟨s2, s1.sends, k, hk, ?_, ?_, ?_, hclosed2⟩
  · rw [send_message_fits c env fuel s actorUUID behaviorType bytes count hfit, hs1]
    exact hs2
  · rw [hout2, send_of_open env s1 _ k hclosed1 hk]
    simp only [hout1]
    have h4 : min k (min (htonl (count % 4294967296)).length MAX_XFER) = min k 4 := by
      simp [htonl, MAX_XFER]
    have hh : htonl (count % 4294967296) = htonl count := by simp [htonl]
    rw [h4, hh]
    have ht : List.take (min k 4) (htonl count) = List.take k (htonl count) := by
      rw [List.take_eq_take]; simp [htonl]
    rw [ht]
    simp
  · rw [hin2, send_of_open env s1 _ k hclosed1 hk]
    exact hin1

/-- C7 (partial sends of whole frames).  The reply with uuid `a` and the
one-byte payload 7, and the message with uuid `a`, behavior `b` and the same
payload: over a transport that accepts one byte per `send` call only the
first of the four bytes of the payload length reaches the connection, while
a transport that accepts every buffer whole gets all four. -/
theorem send_reply_one_byte_transport (c : Commands) :
    (∃ s', send_reply c (chunked 1 1) 300 (fresh []) [97] [7] 1 = Except.ok s' ∧
      s'.outbound = [c.COMMAND_SEND_REPLY % 256, 1, 97, 0, 7]) ∧
    (∃ s', send_reply c (chunked 8 8) 300 (fresh []) [97] [7] 1 = Except.ok s' ∧
      s'.outbound = [c.COMMAND_SEND_REPLY % 256, 1, 97, 0, 0, 0, 1, 7]) ∧
    (∃ s', send_message c (chunked 1 1) 600 (fresh []) [97] [98] [7] 1 = Except.ok s' ∧
      s'.outbound = [c.COMMAND_SEND_MESSAGE % 256, 1, 97, 1, 98, 0, 7]) ∧
    (∃ s', send_message c (chunked 8 8) 600 (fresh []) [97] [98] [7] 1 = Except.ok s' ∧
      s'.outbound = [c.COMMAND_SEND_MESSAGE % 256, 1, 97, 1, 98, 0, 0, 0, 1, 7]) := by
  refine ⟨?_, ?_, ?_, ?_⟩
  · obtain ⟨s', j, k, hk, h, hout, _⟩ := send_reply_progress c (chunked 1 1) 300 (fresh []) [97]
      [7] 1 rfl (fun _ => ⟨1, rfl, le_refl 1⟩) (by norm_num) (by norm_num)
    have hk1 : k = 1 := by simpa [chunked] using hk.symm
    subst hk1
    exact ⟨s', h, by rw [hout]; simp [fresh, htonl]⟩
  · obtain ⟨s', j, k, hk, h, hout, _⟩ := send_reply_progress c (chunked 8 8) 300 (fresh []) [97]
      [7] 1 rfl (fun _ => ⟨8, rfl, by norm_num⟩) (by norm_num) (by norm_num)
    have hk8 : k = 8 := by simpa [chunked] using hk.symm
    subst hk8
    exact ⟨s', h, by rw [hout]; simp [fresh, htonl]⟩
  · obtain ⟨s', j, k, hk, h, hout, _⟩ := send_message_progress c (chunked 1 1) 600 (fresh [])
      [97] [98] [7] 1 rfl (fun _ => ⟨1, rfl, le_refl 1⟩) (by norm_num) (by norm_num)
      (by norm_num)
    have hk1 : k = 1 := by simpa [chunked] using hk.symm
    subst hk1
    exact ⟨s', h, by rw [hout]; simp [fresh, htonl]⟩
  · obtain ⟨s', j, k, hk, h, hout, _⟩ := send_message_progress c (chunked 8 8) 600 (fresh [])
      [97] [98] [7] 1 rfl (fun _ => ⟨8, rfl, by norm_num⟩) (by norm_num) (by norm_num)
      (by norm_num)
    have hk8 : k = 8 := by simpa [chunked] using hk.symm
    subst hk8
    exact ⟨s', h, by rw [hout]; simp [fresh, htonl]⟩

/-- C10 (the composed header and the scratch array).  `send_create_actor` and
`send_message` store outside `char buffer[512]` exactly when the two length
bytes add up to more than 509, and the first index outside the array that
they write is 512; two strings of 255 bytes do that.  The encoders with one
string field never store outside the array. -/
theorem scratch_buffer_bounds (c : Commands) (env : Env) (fuel : Nat) (s : Sock)
    (str1 str2 bytes : List Nat) (count : Nat) :
    ((∃ i, send_create_actor c env fuel s str1 str2 = Except.error (Fault.outOfBounds i)) ↔
        509 < str1.length % 256 + str2.length % 256) ∧
    ((∃ i, send_message c env fuel s str1 str2 bytes count
          = Except.error (Fault.outOfBounds i)) ↔
        509 < str1.length % 256 + str2.length % 256) ∧
    send_create_actor c env fuel s (List.replicate 255 97) (List.replicate 255 98)
      = Except.error (Fault.outOfBounds 512) ∧
    send_message c env fuel s (List.replicate 255 97) (List.replicate 255 98) bytes count
      = Except.error (Fault.outOfBounds 512) ∧
    (∀ i, send_version_check c str1 env fuel s ≠ Except.error (Fault.outOfBounds i)) ∧
    (∀ i, send_destroy_actor c env fuel s str1 ≠ Except.error (Fault.outOfBounds i)) ∧
    (∀ i, send_reply c env fuel s str1 bytes count ≠ Except.error (Fault.outOfBounds i)) := by
  refine ⟨⟨?_, ?_⟩, ⟨?_, ?_⟩, ?_, ?_, ?_, ?_, ?_⟩
  · rintro ⟨i, hi⟩
    by_contra hfit
    rw [send_create_actor_fits c env fuel s str1 str2 (by omega)] at hi
    exact send_buffer_not_oob env i _ _ _ hi
  · intro h
    exact ⟨512, send_create_actor_overflow c env fuel s str1 str2 h⟩
  · rintro ⟨i, hi⟩
    by_contra hfit
    rw [send_message_fits c env fuel s str1 str2 bytes count (by omega)] at hi
    cases hsb : send_buffer env fuel s
        ([c.COMMAND_SEND_MESSAGE % 256, str1.length % 256 % 256] ++
          str1.take (str1.length % 256) ++ [str2.length % 256 % 256] ++
          str2.take (str2.length % 256)) with
    | error e =>
      rw [hsb] at hi
      simp only [Except.bind, Except.error.injEq] at hi
      rw [hi] at hsb
      exact send_buffer_not_oob env i _ _ _ hsb
    | ok s1 =>
      rw [hsb] at hi
      exact send_buffer_not_oob env i _ _ _ hi
  · intro h
    exact ⟨512, send_message_overflow c env fuel s str1 str2 bytes count h⟩
  · exact send_create_actor_overflow c env fuel s _ _ (by simp only [List.length_replicate]; norm_num)
  · exact send_message_overflow c env fuel s _ _ bytes count (by simp only [List.length_replicate]; norm_num)
  · intro i
    rw [send_version_check_eq]
    exact send_buffer_not_oob env i _ _ _
  · intro i
    rw [send_destroy_actor_eq]
    exact send_buffer_not_oob env i _ _ _
  · intro i hi
    rw [send_reply_eq] at hi
    cases hsb : send_buffer env fuel s
        ([c.COMMAND_SEND_REPLY % 256, str1.length % 256 % 256] ++
          str1.take (str1.length % 256)) with
    | error e =>
      rw [hsb] at hi
      simp only [Except.bind, Except.error.injEq] at hi
      rw [hi] at hsb
      exact send_buffer_not_oob env i _ _ _ hsb
    | ok s1 =>
      rw [hsb] at hi
      exact send_buffer_not_oob env i _ _ _ hi

/-- C1 (round trip of the string-only commands).  For a uuid and a type name
of 255 bytes each `send_create_actor` stores past the end of its scratch
array, so the run has no defined end and hands no frame to the connection
that `read_command` and `read_bytecount_buffer` could read back. -/
theorem send_create_actor_no_frame (c : Commands) (env : Env) (fuel : Nat) (s s' : Sock) :
    send_create_actor c env fuel s (List.replicate 255 65) (List.replicate 255 66)
      ≠ Except.ok s' := by
  rw [send_create_actor_overflow c env fuel s _ _ (by simp only [List.length_replicate]; norm_num)]
  simp

/-- C3 (wire layout).  For a uuid and a behavior name of 255 bytes each
`send_message` stores at index 512 of its 512-byte scratch array before it
sends anything, so it does not transmit the encoding of the wire table. -/
theorem send_message_header_overflow (c : Commands) (env : Env) (fuel : Nat) (s : Sock)
    (bytes : List Nat) (count : Nat) :
    send_message c env fuel s (List.replicate 255 65) (List.replicate 255 66) bytes count
      = Except.error (Fault.outOfBounds 512) :=
  send_message_overflow c env fuel s _ _ bytes count (by simp only [List.length_replicate]; norm_num)

/-! ## Wire layout and round trips -/

/-- Wire layout of `send_version_check`, for a version string of at most 255
bytes over a transport that accepts at least one byte per call. -/
theorem send_version_check_wire_layout (c : Commands) (uuid : List Nat) (env : Env)
    (fuel : Nat) (s : Sock) (hopen : s.closed = false)
    (hplan : ∀ i, ∃ k, env.sendPlan i = Xfer.upTo k ∧ 1 ≤ k)
    (htag : c.COMMAND_VERSION_CHECK < 256) (hu : uuid.length ≤ 255) (hfuel : 257 ≤ fuel) :
    ∃ s', send_version_check c uuid env fuel s = Except.ok s' ∧
      s'.outbound = s.outbound ++ wire_version_check c uuid ∧
      s'.inbound = s.inbound ∧ s'.closed = false := by
  have hm : uuid.length % 256 = uuid.length := Nat.mod_eq_of_lt (by omega)
  obtain ⟨s', h, hout, hin, _, hclosed, _⟩ := send_buffer_all env hplan fuel s
    ([c.COMMAND_VERSION_CHECK % 256, uuid.length % 256 % 256] ++ uuid.take (uuid.length % 256))
    hopen (by simp; omega)
  refine ⟨s', by rw [send_version_check_eq]; exact h, ?_, hin, hclosed⟩
  rw [hout]
  simp [wire_version_check, wire_string, hm, Nat.mod_eq_of_lt htag]

/-- Wire layout of `send_destroy_actor`, for a uuid of at most 255 bytes. -/
theorem send_destroy_actor_wire_layout (c : Commands) (env : Env) (fuel : Nat) (s : Sock)
    (uuid : List Nat) (hopen : s.closed = false)
    (hplan : ∀ i, ∃ k, env.sendPlan i = Xfer.upTo k ∧ 1 ≤ k)
    (htag : c.COMMAND_DESTROY_ACTOR < 256) (hu : uuid.length ≤ 255) (hfuel : 257 ≤ fuel) :
    ∃ s', send_destroy_actor c env fuel s uuid = Except.ok s' ∧
      s'.outbound = s.outbound ++ wire_destroy_actor c uuid ∧
      s'.inbound = s.inbound ∧ s'.closed = false := by
  have hm : uuid.length % 256 = uuid.length := Nat.mod_eq_of_lt (by omega)
  obtain ⟨s', h, hout, hin, _, hclosed, _⟩ := send_buffer_all env hplan fuel s
    ([c.COMMAND_DESTROY_ACTOR % 256, uuid.length % 256 % 256] ++ uuid.take (uuid.length % 256))
    hopen (by simp; omega)
  refine ⟨s', by rw [send_destroy_actor_eq]; exact h, ?_, hin, hclosed⟩
  rw [hout]
  simp [wire_destroy_actor, wire_string, hm, Nat.mod_eq_of_lt htag]

/-- Wire layout of `send_create_actor`, for strings of at most 255 bytes whose
header fits the scratch array. -/
theorem send_create_actor_wire_layout (c : Commands) (env : Env) (fuel : Nat) (s : Sock)
    (uuid type : List Nat) (hopen : s.closed = false)
    (hplan : ∀ i, ∃ k, env.sendPlan i = Xfer.upTo k ∧ 1 ≤ k)
    (htag : c.COMMAND_CREATE_ACTOR < 256) (hu : uuid.length ≤ 255) (ht : type.length ≤ 255)
    (hfit : uuid.length + type.length ≤ 509) (hfuel : 512 ≤ fuel) :
    ∃ s', send_create_actor c env fuel s uuid type = Except.ok s' ∧
      s'.outbound = s.outbound ++ wire_create_actor c uuid type ∧
      s'.inbound = s.inbound ∧ s'.closed = false := by
  have hm : uuid.length % 256 = uuid.length := Nat.mod_eq_of_lt (by omega)
  have hm2 : type.length % 256 = type.length := Nat.mod_eq_of_lt (by omega)
  obtain ⟨s', h, hout, hin, _, hclosed, _⟩ := send_buffer_all env hplan fuel s
    ([c.COMMAND_CREATE_ACTOR % 256, uuid.length % 256 % 256] ++ uuid.take (uuid.length % 256) ++
      [type.length % 256 % 256] ++ type.take (type.length % 256))
    hopen (by simp [hm, hm2]; omega)
  refine ⟨s', ?_, ?_, hin, hclosed⟩
  · rw [send_create_actor_fits c env fuel s uuid type (by omega)]; exact h
  · rw [hout]
    simp [wire_create_actor, wire_string, hm, hm2, Nat.mod_eq_of_lt htag]

/-- Wire layout of `send_reply`, for a uuid of at most 255 bytes over a
transport that accepts at least four bytes per call. -/
theorem send_reply_wire_layout (c : Commands) (env : Env) (fuel : Nat) (s : Sock)
    (uuid bytes : List Nat) (count : Nat) (hopen : s.closed = false)
    (hplan : ∀ i, ∃ k, env.sendPlan i = Xfer.upTo k ∧ 4 ≤ k)
    (htag : c.COMMAND_SEND_REPLY < 256) (hu : uuid.length ≤ 255)
    (hcount : count ≤ bytes.length) (h32 : count < 4294967296)
    (hfuel : 257 ≤ fuel) (hfuel2 : count ≤ fuel) :
    ∃ s', send_reply c env fuel s uuid bytes count = Except.ok s' ∧
      s'.outbound = s.outbound ++ wire_send_reply c uuid (bytes.take count) ∧
      s'.inbound = s.inbound ∧ s'.closed = false := by
  have hm : uuid.length % 256 = uuid.length := Nat.mod_eq_of_lt (by omega)
  have hc : count % 4294967296 = count := Nat.mod_eq_of_lt h32
  obtain ⟨s', j, k, hk, h, hout, hin, hclosed⟩ := send_reply_progress c env fuel s uuid bytes count
    hopen (fun i => (hplan i).imp fun k hk => ⟨hk.1, by omega⟩) hfuel (by omega)
  obtain ⟨k', hk', hk4⟩ := hplan j
  have hkk : k = k' := by rw [hk] at hk'; exact Xfer.upTo.inj hk'
  subst hkk
  refine ⟨s', h, ?_, hin, hclosed⟩
  have htk : (htonl count).take k = htonl count :=
    List.take_of_length_le (by simp [htonl]; omega)
  rw [hout, hc, htk, htonl_eq_wire_u32 count h32]
  simp [wire_send_reply, wire_string, wire_payload, hm, Nat.mod_eq_of_lt htag,
    Nat.min_eq_left hcount]

/-- Wire layout of `send_message`, for strings of at most 255 bytes whose
header fits the scratch array, over a transport that accepts at least four
bytes per call. -/
theorem send_message_wire_layout (c : Commands) (env : Env) (fuel : Nat) (s : Sock)
    (uuid behavior bytes : List Nat) (count : Nat) (hopen : s.closed = false)
    (hplan : ∀ i, ∃ k, env.sendPlan i = Xfer.upTo k ∧ 4 ≤ k)
    (htag : c.COMMAND_SEND_MESSAGE < 256) (hu : uuid.length ≤ 255) (hb : behavior.length ≤ 255)
    (hfit : uuid.length + behavior.length ≤ 509)
    (hcount : count ≤ bytes.length) (h32 : count < 4294967296)
    (hfuel : 512 ≤ fuel) (hfuel2 : count ≤ fuel) :
    ∃ s', send_message c env fuel s uuid behavior bytes count = Except.ok s' ∧
      s'.outbound = s.outbound ++ wire_send_message c uuid behavior (bytes.take count) ∧
      s'.inbound = s.inbound ∧ s'.closed = false := by
  have hm : uuid.length % 256 = uuid.length := Nat.mod_eq_of_lt (by omega)
  have hm2 : behavior.length % 256 = behavior.length := Nat.mod_eq_of_lt (by omega)
  have hc : count % 4294967296 = count := Nat.mod_eq_of_lt h32
  obtain ⟨s', j, k, hk, h, hout, hin, hclosed⟩ := send_message_progress c env fuel s uuid
    behavior bytes count hopen (fun i => (hplan i).imp fun k hk => ⟨hk.1, by omega⟩)
    (by omega) hfuel (by omega)
  obtain ⟨k', hk', hk4⟩ := hplan j
  have hkk : k = k' := by rw [hk] at hk'; exact Xfer.upTo.inj hk'
  subst hkk
  refine ⟨s', h, ?_, hin, hclosed⟩
  have htk : (htonl count).take k = htonl count :=
    List.take_of_length_le (by simp [htonl]; omega)
  rw [hout, hc, htk, htonl_eq_wire_u32 count h32]
  simp [wire_send_message, wire_string, wire_payload, hm, hm2, Nat.mod_eq_of_lt htag,
    Nat.min_eq_left hcount]

/-- Round trip of `VersionCheck`: what `send_version_check` emits for a
version string of at most 255 bytes is read back by `read_command` and one
`read_bytecount_buffer` with `max_length` 256, and nothing is left over. -/
theorem version_check_round_trip (c : Commands) (uuid dst : List Nat) (envS envR : Env)
    (fuel : Nat) (s r : Sock) (hs : s.closed = false)
    (hsend : ∀ i, ∃ k, envS.sendPlan i = Xfer.upTo k ∧ 1 ≤ k)
    (htag : c.COMMAND_VERSION_CHECK < 256) (hu : uuid.length ≤ 255) (hfuel : 257 ≤ fuel)
    (hr : r.closed = false) (hrecv : ∀ i, ∃ k, envR.recvPlan i = Xfer.upTo k ∧ 255 ≤ k) :
    ∃ s', send_version_check c uuid envS fuel s = Except.ok s' ∧
      (r.inbound = s'.outbound.drop s.outbound.length →
        (read_command c envR r).1 = c.COMMAND_VERSION_CHECK ∧
        (read_bytecount_buffer envR (read_command c envR r).2 dst 256).ok = true ∧
        (read_bytecount_buffer envR (read_command c envR r).2 dst 256).dst = store dst uuid ∧
        (read_bytecount_buffer envR (read_command c envR r).2 dst 256).sock.inbound = []) := by
  obtain ⟨s', h, hout, _⟩ :=
    send_version_check_wire_layout c uuid envS fuel s hs hsend htag hu hfuel
  refine ⟨s', h, ?_⟩
  intro hin
  rw [hout, List.drop_left] at hin
  obtain ⟨hc1, hc2, hc3⟩ := read_command_stream c envR r c.COMMAND_VERSION_CHECK
    (wire_string uuid) hr (fun i => (hrecv i).imp fun k hk => ⟨hk.1, by omega⟩) hin htag
  obtain ⟨hb1, hb2, hb3, _⟩ := read_bytecount_buffer_stream envR (read_command c envR r).2 dst
    uuid [] 256 hc3 (fun i => (hrecv i).imp fun k hk => ⟨hk.1, by omega, by omega⟩)
    (by rw [hc2]; simp) (by omega) (by omega)
  exact ⟨hc1, hb1, hb2, hb3⟩

/-- Round trip of `DestroyActor`, for a uuid of at most 255 bytes. -/
theorem destroy_actor_round_trip (c : Commands) (uuid dst : List Nat) (envS envR : Env)
    (fuel : Nat) (s r : Sock) (hs : s.closed = false)
    (hsend : ∀ i, ∃ k, envS.sendPlan i = Xfer.upTo k ∧ 1 ≤ k)
    (htag : c.COMMAND_DESTROY_ACTOR < 256) (hu : uuid.length ≤ 255) (hfuel : 257 ≤ fuel)
    (hr : r.closed = false) (hrecv : ∀ i, ∃ k, envR.recvPlan i = Xfer.upTo k ∧ 255 ≤ k) :
    ∃ s', send_destroy_actor c envS fuel s uuid = Except.ok s' ∧
      (r.inbound = s'.outbound.drop s.outbound.length →
        (read_command c envR r).1 = c.COMMAND_DESTROY_ACTOR ∧
        (read_bytecount_buffer envR (read_command c envR r).2 dst 256).ok = true ∧
        (read_bytecount_buffer envR (read_command c envR r).2 dst 256).dst = store dst uuid ∧
        (read_bytecount_buffer envR (read_command c envR r).2 dst 256).sock.inbound = []) := by
  obtain ⟨s', h, hout, _⟩ :=
    send_destroy_actor_wire_layout c envS fuel s uuid hs hsend htag hu hfuel
  refine ⟨s', h, ?_⟩
  intro hin
  rw [hout, List.drop_left] at hin
  obtain ⟨hc1, hc2, hc3⟩ := read_command_stream c envR r c.COMMAND_DESTROY_ACTOR
    (wire_string uuid) hr (fun i => (hrecv i).imp fun k hk => ⟨hk.1, by omega⟩) hin htag
  obtain ⟨hb1, hb2, hb3, _⟩ := read_bytecount_buffer_stream envR (read_command c envR r).2 dst
    uuid [] 256 hc3 (fun i => (hrecv i).imp fun k hk => ⟨hk.1, by omega, by omega⟩)
    (by rw [hc2]; simp) (by omega) (by omega)
  exact ⟨hc1, hb1, hb2, hb3⟩

/-- Round trip of `CreateActor`, for strings of at most 255 bytes whose
header fits the scratch array of `send_create_actor`. -/
theorem create_actor_round_trip (c : Commands) (uuid type dst1 dst2 : List Nat)
    (envS envR : Env) (fuel : Nat) (s r : Sock) (hs : s.closed = false)
    (hsend : ∀ i, ∃ k, envS.sendPlan i = Xfer.upTo k ∧ 1 ≤ k)
    (htag : c.COMMAND_CREATE_ACTOR < 256) (hu : uuid.length ≤ 255) (ht : type.length ≤ 255)
    (hfit : uuid.length + type.length ≤ 509) (hfuel : 512 ≤ fuel)
    (hr : r.closed = false) (hrecv : ∀ i, ∃ k, envR.recvPlan i = Xfer.upTo k ∧ 255 ≤ k) :
    ∃ s', send_create_actor c envS fuel s uuid type = Except.ok s' ∧
      (r.inbound = s'.outbound.drop s.outbound.length →
        (read_command c envR r).1 = c.COMMAND_CREATE_ACTOR ∧
        (read_bytecount_buffer envR (read_command c envR r).2 dst1 256).ok = true ∧
        (read_bytecount_buffer envR (read_command c envR r).2 dst1 256).dst = store dst1 uuid ∧
        (read_bytecount_buffer envR
          (read_bytecount_buffer envR (read_command c envR r).2 dst1 256).sock dst2 256).ok
            = true ∧
        (read_bytecount_buffer envR
          (read_bytecount_buffer envR (read_command c envR r).2 dst1 256).sock dst2 256).dst
            = store dst2 type ∧
        (read_bytecount_buffer envR
          (read_bytecount_buffer envR (read_command c envR r).2 dst1 256).sock dst2
            256).sock.inbound = []) := by
  obtain ⟨s', h, hout, _⟩ :=
    send_create_actor_wire_layout c envS fuel s uuid type hs hsend htag hu ht hfit hfuel
  refine ⟨s', h, ?_⟩
  intro hin
  rw [hout, List.drop_left] at hin
  obtain ⟨hc1, hc2, hc3⟩ := read_command_stream c envR r c.COMMAND_CREATE_ACTOR
    (wire_string uuid ++ wire_string type) hr
    (fun i => (hrecv i).imp fun k hk => ⟨hk.1, by omega⟩) hin htag
  obtain ⟨hb1, hb2, hb3, hb4⟩ := read_bytecount_buffer_stream envR (read_command c envR r).2
    dst1 uuid (wire_string type) 256 hc3
    (fun i => (hrecv i).imp fun k hk => ⟨hk.1, by omega, by omega⟩)
    hc2 (by omega) (by omega)
  obtain ⟨hd1, hd2, hd3, _⟩ := read_bytecount_buffer_stream envR
    (read_bytecount_buffer envR (read_command c envR r).2 dst1 256).sock
    dst2 type [] 256 hb4
    (fun i => (hrecv i).imp fun k hk => ⟨hk.1, by omega, by omega⟩)
    (by rw [hb3]; simp) (by omega) (by omega)
  exact ⟨hc1, hb1, hb2, hd1, hd2, hd3⟩

/-- Round trip of the payload of `SendReply`, for a payload of at least one
byte: after the command byte and the uuid, `read_intcount_buffer` returns the
payload and sets `*count` to its length. -/
theorem reply_payload_round_trip (c : Commands) (uuid bytes dst count_mem : List Nat)
    (envS envR : Env) (fuel : Nat) (s r : Sock) (hs : s.closed = false)
    (hsend : ∀ i, ∃ k, envS.sendPlan i = Xfer.upTo k ∧ 4 ≤ k)
    (htag : c.COMMAND_SEND_REPLY < 256) (hu : uuid.length ≤ 255)
    (h1 : 1 ≤ bytes.length) (h32 : bytes.length < 4294967296)
    (hfuel : 257 ≤ fuel) (hfuel2 : bytes.length ≤ fuel)
    (hr : r.closed = false)
    (hrecv : ∀ i, ∃ k, envR.recvPlan i = Xfer.upTo k ∧ 255 ≤ k ∧ bytes.length ≤ k) :
    ∃ s', send_reply c envS fuel s uuid bytes bytes.length = Except.ok s' ∧
      (r.inbound = s'.outbound.drop s.outbound.length →
        (read_command c envR r).1 = c.COMMAND_SEND_REPLY ∧
        (read_bytecount_buffer envR (read_command c envR r).2 dst 256).ok = true ∧
        (read_bytecount_buffer envR (read_command c envR r).2 dst 256).dst = store dst uuid ∧
        (read_intcount_buffer envR
          (read_bytecount_buffer envR (read_command c envR r).2 dst 256).sock count_mem).bytes
            = some bytes ∧
        (read_intcount_buffer envR
          (read_bytecount_buffer envR (read_command c envR r).2 dst 256).sock count_mem).count
            = some bytes.length ∧
        (read_intcount_buffer envR
          (read_bytecount_buffer envR (read_command c envR r).2 dst 256).sock
            count_mem).sock.inbound = []) := by
  obtain ⟨s', h, hout, _⟩ :=
    send_reply_wire_layout c envS fuel s uuid bytes bytes.length hs hsend htag hu (le_refl _)
      h32 hfuel hfuel2
  refine ⟨s', h, ?_⟩
  intro hin
  rw [hout, List.drop_left, List.take_length] at hin
  obtain ⟨hc1, hc2, hc3⟩ := read_command_stream c envR r c.COMMAND_SEND_REPLY
    (wire_string uuid ++ wire_payload bytes) hr
    (fun i => (hrecv i).imp fun k hk => ⟨hk.1, by omega⟩) hin htag
  obtain ⟨hb1, hb2, hb3, hb4⟩ := read_bytecount_buffer_stream envR (read_command c envR r).2
    dst uuid (wire_payload bytes) 256 hc3
    (fun i => (hrecv i).imp fun k hk => ⟨hk.1, by omega, by omega⟩)
    hc2 (by omega) (by omega)
  obtain ⟨hd1, hd2, hd3⟩ := read_intcount_buffer_stream envR
    (read_bytecount_buffer envR (read_command c envR r).2 dst 256).sock count_mem bytes [] hb4
    (fun i => (hrecv i).imp fun k hk => ⟨hk.1, by omega, by omega⟩)
    (by rw [hb3]; simp) h1 h32
  exact ⟨hc1, hb1, hb2, hd1, hd2, hd3⟩

/-- The round trip of `CreateActor` at a concrete command. -/
theorem create_actor_round_trip_example :
    ∃ s', send_create_actor tags0 (chunked 1 1) 512 (fresh []) [117, 49] [67, 116, 114]
        = Except.ok s' ∧
      ((fresh [2, 2, 117, 49, 3, 67, 116, 114]).inbound
          = s'.outbound.drop (fresh []).outbound.length →
        (read_command tags0 (chunked 1 255) (fresh [2, 2, 117, 49, 3, 67, 116, 114])).1
          = tags0.COMMAND_CREATE_ACTOR ∧
        (read_bytecount_buffer (chunked 1 255)
          (read_command tags0 (chunked 1 255) (fresh [2, 2, 117, 49, 3, 67, 116, 114])).2
          [0, 0, 0, 0] 256).ok = true ∧
        (read_bytecount_buffer (chunked 1 255)
          (read_command tags0 (chunked 1 255) (fresh [2, 2, 117, 49, 3, 67, 116, 114])).2
          [0, 0, 0, 0] 256).dst = store [0, 0, 0, 0] [117, 49] ∧
        (read_bytecount_buffer (chunked 1 255)
          (read_bytecount_buffer (chunked 1 255)
            (read_command tags0 (chunked 1 255) (fresh [2, 2, 117, 49, 3, 67, 116, 114])).2
            [0, 0, 0, 0] 256).sock [0, 0, 0, 0] 256).ok = true ∧
        (read_bytecount_buffer (chunked 1 255)
          (read_bytecount_buffer (chunked 1 255)
            (read_command tags0 (chunked 1 255) (fresh [2, 2, 117, 49, 3, 67, 116, 114])).2
            [0, 0, 0, 0] 256).sock [0, 0, 0, 0] 256).dst = store [0, 0, 0, 0] [67, 116, 114] ∧
        (read_bytecount_buffer (chunked 1 255)
          (read_bytecount_buffer (chunked 1 255)
            (read_command tags0 (chunked 1 255) (fresh [2, 2, 117, 49, 3, 67, 116, 114])).2
            [0, 0, 0, 0] 256).sock [0, 0, 0, 0] 256).sock.inbound = []) :=
  create_actor_round_trip tags0 [117, 49] [67, 116, 114] [0, 0, 0, 0] [0, 0, 0, 0]
    (chunked 1 1) (chunked 1 255) 512 (fresh []) (fresh [2, 2, 117, 49, 3, 67, 116, 114]) rfl
    (fun _ => ⟨1, rfl, le_refl 1⟩) (by decide) (by decide) (by decide) (by decide) (le_refl _)
    rfl (fun _ => ⟨255, rfl, le_refl _⟩)

/-- The wire layout of `send_message` at a concrete message. -/
theorem send_message_wire_layout_example :
    ∃ s', send_message tags0 (chunked 4 4) 512 (fresh []) [117, 49] [105, 110, 99] [1] 1
        = Except.ok s' ∧
      s'.outbound = (fresh []).outbound ++
        wire_send_message tags0 [117, 49] [105, 110, 99] ([1].take 1) ∧
      s'.inbound = (fresh []).inbound ∧ s'.closed = false :=
  send_message_wire_layout tags0 (chunked 4 4) 512 (fresh []) [117, 49] [105, 110, 99] [1] 1
    rfl (fun _ => ⟨4, rfl, le_refl 4⟩) (by decide) (by decide) (by decide) (by decide)
    (by decide) (by decide) (le_refl _) (by decide)

/-! ## The readers: sentinel, closing order and bounded write -/

theorem recv_of_closed (env : Env) (s : Sock) (len : Nat) (h : s.closed = true) :
    recv env s len =
      ⟨-1, [], { s with recvs := s.recvs + 1, trace := s.trace ++ [Syscall.recv len (-1)] }⟩ := by
  simp [recv, h]

theorem recv_of_error (env : Env) (s : Sock) (len : Nat) (h : s.closed = false)
    (hplan : env.recvPlan s.recvs = Xfer.error) :
    recv env s len =
      ⟨-1, [], { s with recvs := s.recvs + 1, trace := s.trace ++ [Syscall.recv len (-1)] }⟩ := by
  simp [recv, h, hplan]

theorem recv_of_open (env : Env) (s : Sock) (len k : Nat) (h : s.closed = false)
    (hplan : env.recvPlan s.recvs = Xfer.upTo k) :
    recv env s len =
      ⟨((s.inbound.take (min k len)).length : Nat), s.inbound.take (min k len),
        { s with inbound := s.inbound.drop (min k len), recvs := s.recvs + 1,
                 trace := s.trace ++
                   [Syscall.recv len ((s.inbound.take (min k len)).length : Nat)] }⟩ := by
  simp [recv, h, hplan]

theorem recv_nothing_inbound (env : Env) (s : Sock) (len : Nat)
    (h : (recv env s len).data = []) : (recv env s len).sock.inbound = s.inbound := by
  cases hc : s.closed with
  | true => rw [recv_of_closed env s len hc]
  | false =>
    cases hp : env.recvPlan s.recvs with
    | error => rw [recv_of_error env s len hc hp]
    | upTo k =>
      rw [recv_of_open env s len k hc hp] at h ⊢
      simp only [List.take_eq_nil_iff] at h
      rcases h with h | h
      · simp [h]
      · simp [h]

theorem recv_cases (env : Env) (s : Sock) (len : Nat) :
    (recv env s len).data = [] ∨
    ∃ k, s.closed = false ∧ env.recvPlan s.recvs = Xfer.upTo k ∧ 1 ≤ k ∧ 1 ≤ len ∧
      s.inbound ≠ [] := by
  cases hc : s.closed with
  | true => left; rw [recv_of_closed env s len hc]
  | false =>
    cases hp : env.recvPlan s.recvs with
    | error => left; rw [recv_of_error env s len hc hp]
    | upTo k =>
      by_cases hd : (recv env s len).data = []
      · exact Or.inl hd
      · right
        rw [recv_of_open env s len k hc hp] at hd
        simp only [List.take_eq_nil_iff, not_or] at hd
        refine ⟨k, rfl, rfl, ?_, ?_, hd.2⟩ <;> omega

/-- C11 (null sentinel).  `read_command` makes one `recv` call.  When that call
delivers no byte (closed descriptor, failed call, closed or idle peer) the
function returns `COMMAND_NULL` and the stream is untouched; when it delivers
a byte, the function returns the first byte of the stream and the stream
stands right behind it.  One of the two always is the case. -/
theorem read_command_null_sentinel (c : Commands) (env : Env) (s : Sock)
    (htag : c.COMMAND_NULL < 256) :
    ((recv env s 1).data = [] →
        (read_command c env s).1 = c.COMMAND_NULL ∧
        (read_command c env s).2.inbound = s.inbound) ∧
    (∀ (b k : Nat) (rest : List Nat), s.closed = false → env.recvPlan s.recvs = Xfer.upTo k →
        1 ≤ k → s.inbound = b :: rest → b < 256 →
        (recv env s 1).data = [b] ∧
        (read_command c env s).1 = b ∧ (read_command c env s).2.inbound = rest) ∧
    ((recv env s 1).data = [] ∨
      ∃ (b k : Nat) (rest : List Nat), s.closed = false ∧ env.recvPlan s.recvs = Xfer.upTo k ∧
        1 ≤ k ∧ s.inbound = b :: rest) ∧
    (read_command c env s).2.recvs = s.recvs + 1 := by
  refine ⟨?_, ?_, ?_, ?_⟩
  · intro h
    refine ⟨?_, ?_⟩
    · simp [read_command, h, firstOr, Nat.mod_eq_of_lt htag]
    · simpa [read_command] using recv_nothing_inbound env s 1 h
  · intro b k rest hopen hplan hk hin hb
    have hr := recv_deliver env s 1 k [b] rest hopen hplan hk (by simp [hin]) rfl
    refine ⟨by rw [hr], ?_, ?_⟩
    · simp [read_command, hr, firstOr, Nat.mod_eq_of_lt hb]
    · simp [read_command, hr]
  · rcases recv_cases env s 1 with h | ⟨k, hopen, hplan, hk, _, hne⟩
    · exact Or.inl h
    · right
      cases hin : s.inbound with
      | nil => exact absurd hin hne
      | cons b rest => exact ⟨b, k, rest, hopen, hplan, hk, rfl⟩
  · simp [read_command, recv_recvs]

theorem read_command_null_sentinel_witness :
    tags0.COMMAND_NULL < 256 ∧
    ((recv (chunked 1 1) (fresh []) 1).data = [] →
        (read_command tags0 (chunked 1 1) (fresh [])).1 = tags0.COMMAND_NULL ∧
        (read_command tags0 (chunked 1 1) (fresh [])).2.inbound = (fresh []).inbound) ∧
    (∀ (b k : Nat) (rest : List Nat), (fresh []).closed = false →
        (chunked 1 1).recvPlan (fresh []).recvs = Xfer.upTo k →
        1 ≤ k → (fresh []).inbound = b :: rest → b < 256 →
        (recv (chunked 1 1) (fresh []) 1).data = [b] ∧
        (read_command tags0 (chunked 1 1) (fresh [])).1 = b ∧
        (read_command tags0 (chunked 1 1) (fresh [])).2.inbound = rest) ∧
    ((recv (chunked 1 1) (fresh []) 1).data = [] ∨
      ∃ (b k : Nat) (rest : List Nat), (fresh []).closed = false ∧
        (chunked 1 1).recvPlan (fresh []).recvs = Xfer.upTo k ∧
        1 ≤ k ∧ (fresh []).inbound = b :: rest) ∧
    (read_command tags0 (chunked 1 1) (fresh [])).2.recvs = (fresh []).recvs + 1 :=
  ⟨by decide, read_command_null_sentinel tags0 (chunked 1 1) (fresh []) (by decide)⟩

theorem recv_trace (env : Env) (s : Sock) (len : Nat) :
    (recv env s len).sock.trace = s.trace ++ [Syscall.recv len (recv env s len).ret] ∧
    (recv env s len).sock.closed = s.closed := by
  cases hc : s.closed with
  | true => rw [recv_of_closed env s len hc]; exact ⟨rfl, hc⟩
  | false =>
    cases hp : env.recvPlan s.recvs with
    | error => rw [recv_of_error env s len hc hp]; exact ⟨rfl, hc⟩
    | upTo k => rw [recv_of_open env s len k hc hp]; exact ⟨rfl, hc⟩

/-- C12 (a rejection closes the connection, in order).  Whenever the declared
length is at least `max_length`, `read_bytecount_buffer` returns false and the
calls it has made on the socket are the `recv` of the length byte, a shutdown
of both directions and the close of the descriptor, in this order and nothing
else: one close, and no `recv` behind the shutdown; the descriptor is closed
and the stream is where the `recv` of the length byte left it.  `close_socket`
itself adds to the calls made on any socket that shutdown and then that close,
marks the descriptor closed and touches nothing else. -/
theorem read_bytecount_buffer_closes_in_order (env : Env) (s : Sock) (dst : List Nat)
    (max_length : Nat) (hrej : max_length ≤ declared_count env s) :
    (read_bytecount_buffer env s dst max_length).ok = false ∧
    (read_bytecount_buffer env s dst max_length).sock.trace =
      s.trace ++ [Syscall.recv 1 (recv env s 1).ret, Syscall.shutdown_rdwr, Syscall.close] ∧
    (read_bytecount_buffer env s dst max_length).sock.closed = true ∧
    (read_bytecount_buffer env s dst max_length).sock.recvs = s.recvs + 1 ∧
    (read_bytecount_buffer env s dst max_length).sock.inbound = (recv env s 1).sock.inbound ∧
    (∀ s0 : Sock,
      (close_socket s0).trace = s0.trace ++ [Syscall.shutdown_rdwr, Syscall.close] ∧
      (close_socket s0).closed = true ∧
      (close_socket s0).inbound = s0.inbound ∧ (close_socket s0).outbound = s0.outbound ∧
      (close_socket s0).recvs = s0.recvs ∧ (close_socket s0).sends = s0.sends) := by
  have h : max_length ≤ firstOr 0 (recv env s 1).data % 256 := hrej
  refine ⟨?_, ?_, ?_, ?_, ?_, fun s0 => ⟨by simp [close_socket], rfl, rfl, rfl, rfl, rfl⟩⟩ <;>
  simp [read_bytecount_buffer, h, close_socket, (recv_trace env s 1).1, recv_recvs]

theorem read_bytecount_buffer_closes_in_order_witness :
    4 ≤ declared_count (chunked 1 8) (fresh [9, 104, 105]) ∧
    (read_bytecount_buffer (chunked 1 8) (fresh [9, 104, 105]) [1, 2, 3, 4] 4).ok = false ∧
    (read_bytecount_buffer (chunked 1 8) (fresh [9, 104, 105]) [1, 2, 3, 4] 4).sock.trace =
      (fresh [9, 104, 105]).trace ++
        [Syscall.recv 1 (recv (chunked 1 8) (fresh [9, 104, 105]) 1).ret,
          Syscall.shutdown_rdwr, Syscall.close] ∧
    (read_bytecount_buffer (chunked 1 8) (fresh [9, 104, 105]) [1, 2, 3, 4] 4).sock.closed
      = true ∧
    (read_bytecount_buffer (chunked 1 8) (fresh [9, 104, 105]) [1, 2, 3, 4] 4).sock.recvs
      = (fresh [9, 104, 105]).recvs + 1 ∧
    (read_bytecount_buffer (chunked 1 8) (fresh [9, 104, 105]) [1, 2, 3, 4] 4).sock.inbound
      = (recv (chunked 1 8) (fresh [9, 104, 105]) 1).sock.inbound ∧
    (∀ s0 : Sock,
      (close_socket s0).trace = s0.trace ++ [Syscall.shutdown_rdwr, Syscall.close] ∧
      (close_socket s0).closed = true ∧
      (close_socket s0).inbound = s0.inbound ∧ (close_socket s0).outbound = s0.outbound ∧
      (close_socket s0).recvs = s0.recvs ∧ (close_socket s0).sends = s0.sends) :=
  ⟨by decide, read_bytecount_buffer_closes_in_order (chunked 1 8) (fresh [9, 104, 105])
    [1, 2, 3, 4] 4 (by decide)⟩

/-- The rejecting run of the witness, call by call: the length byte 9 is read,
both directions are shut down, the descriptor is closed; the two bytes behind
the length byte stay in the stream and `dst` is as before. -/
theorem read_bytecount_buffer_rejecting_run :
    (read_bytecount_buffer (chunked 1 8) (fresh [9, 104, 105]) [1, 2, 3, 4] 4).ok = false ∧
    (read_bytecount_buffer (chunked 1 8) (fresh [9, 104, 105]) [1, 2, 3, 4] 4).sock.trace
      = [Syscall.recv 1 1, Syscall.shutdown_rdwr, Syscall.close] ∧
    (read_bytecount_buffer (chunked 1 8) (fresh [9, 104, 105]) [1, 2, 3, 4] 4).sock.closed
      = true ∧
    (read_bytecount_buffer (chunked 1 8) (fresh [9, 104, 105]) [1, 2, 3, 4] 4).sock.inbound
      = [104, 105] ∧
    (read_bytecount_buffer (chunked 1 8) (fresh [9, 104, 105]) [1, 2, 3, 4] 4).dst
      = [1, 2, 3, 4] := by
  decide

/-- The calls of an accepting run: whenever the declared length is below
`max_length`, `read_bytecount_buffer` returns true after two `recv` calls and
neither shuts down nor closes the socket. -/
theorem read_bytecount_buffer_accepting_calls (env : Env) (s : Sock) (dst : List Nat)
    (max_length : Nat) (hacc : declared_count env s < max_length) :
    (read_bytecount_buffer env s dst max_length).ok = true ∧
    (read_bytecount_buffer env s dst max_length).sock.trace =
      s.trace ++ [Syscall.recv 1 (recv env s 1).ret,
        Syscall.recv (declared_count env s)
          (recv env (recv env s 1).sock (declared_count env s)).ret] ∧
    (read_bytecount_buffer env s dst max_length).sock.closed = s.closed := by
  have h : ¬ max_length ≤ firstOr 0 (recv env s 1).data % 256 := by
    unfold declared_count at hacc; omega
  unfold read_bytecount_buffer declared_count
  simp [h, (recv_trace env _ _).1, (recv_trace env _ _).2]

theorem store_drop (dst data : List Nat) (c : Nat) (h : data.length ≤ c) :
    (store dst data).drop c = dst.drop c := by
  unfold store
  rw [List.drop_append_eq_append_drop, List.drop_eq_nil_of_le h, List.nil_append, List.drop_drop]
  congr 1
  omega

theorem store_length (dst data : List Nat) (h : data.length ≤ dst.length) :
    (store dst data).length = dst.length := by
  simp [store]
  omega

/-- C17 (bounded write into the destination).  When `read_bytecount_buffer`
returns true, the declared length `c` is below `max_length`, the function has
stored the bytes the second `recv` delivered, at most `c` of them, at the
start of `dst`, and every byte of `dst` from index `c` on, the one at index
`c` included, is what it was before the call. -/
theorem read_bytecount_buffer_bounded_write (env : Env) (s : Sock) (dst : List Nat)
    (max_length : Nat) (h : (read_bytecount_buffer env s dst max_length).ok = true) :
    declared_count env s < max_length ∧
    (∃ data : List Nat, data.length ≤ declared_count env s ∧
      (read_bytecount_buffer env s dst max_length).dst = store dst data) ∧
    (read_bytecount_buffer env s dst max_length).dst.drop (declared_count env s)
      = dst.drop (declared_count env s) ∧
    (∀ i, declared_count env s ≤ i →
      (read_bytecount_buffer env s dst max_length).dst[i]? = dst[i]?) ∧
    (declared_count env s ≤ dst.length →
      (read_bytecount_buffer env s dst max_length).dst.length = dst.length) := by
  unfold read_bytecount_buffer declared_count at *
  by_cases hc : max_length ≤ firstOr 0 (recv env s 1).data % 256
  · simp [hc] at h
  · have hlen := recv_data_length_le env (recv env s 1).sock (firstOr 0 (recv env s 1).data % 256)
    have hdrop := store_drop dst _ _ hlen
    simp only [ge_iff_le, if_neg hc]
    refine ⟨by omega, ⟨_, hlen, rfl⟩, hdrop, ?_, ?_⟩
    · intro i hi
      have e : i = firstOr 0 (recv env s 1).data % 256 +
          (i - firstOr 0 (recv env s 1).data % 256) := by omega
      rw [e, ← List.getElem?_drop, ← List.getElem?_drop, hdrop]
    · intro hle
      exact store_length dst _ (by omega)

theorem read_bytecount_buffer_bounded_write_witness :
    (read_bytecount_buffer (chunked 1 8) (fresh [2, 104, 105]) [1, 2, 3, 4] 4).ok = true ∧
    declared_count (chunked 1 8) (fresh [2, 104, 105]) < 4 ∧
    (∃ data : List Nat, data.length ≤ declared_count (chunked 1 8) (fresh [2, 104, 105]) ∧
      (read_bytecount_buffer (chunked 1 8) (fresh [2, 104, 105]) [1, 2, 3, 4] 4).dst
        = store [1, 2, 3, 4] data) ∧
    (read_bytecount_buffer (chunked 1 8) (fresh [2, 104, 105]) [1, 2, 3, 4] 4).dst.drop
        (declared_count (chunked 1 8) (fresh [2, 104, 105]))
      = [1, 2, 3, 4].drop (declared_count (chunked 1 8) (fresh [2, 104, 105])) ∧
    (∀ i, declared_count (chunked 1 8) (fresh [2, 104, 105]) ≤ i →
      (read_bytecount_buffer (chunked 1 8) (fresh [2, 104, 105]) [1, 2, 3, 4] 4).dst[i]?
        = [1, 2, 3, 4][i]?) ∧
    (declared_count (chunked 1 8) (fresh [2, 104, 105]) ≤ [1, 2, 3, 4].length →
      (read_bytecount_buffer (chunked 1 8) (fresh [2, 104, 105]) [1, 2, 3, 4] 4).dst.length
        = [1, 2, 3, 4].length) :=
  ⟨by decide, read_bytecount_buffer_bounded_write (chunked 1 8) (fresh [2, 104, 105])
    [1, 2, 3, 4] 4 (by decide)⟩

/-- The destination after the read of the witness: the two bytes of the
string, then the old bytes 3 and 4; no terminator is stored. -/
theorem read_bytecount_buffer_no_terminator :
    (read_bytecount_buffer (chunked 1 8) (fresh [2, 104, 105]) [1, 2, 3, 4] 4).dst
      = [104, 105, 3, 4] := by
  decide

/-! ## The write loop: failure and termination -/

/-- The two ways a `send` call ends: it fails and leaves the connection as it
was, or the transport accepts the first `n` bytes. -/
theorem send_fail_or_accept (env : Env) (s : Sock) (buf : List Nat) :
    ((s.closed = true ∨ env.sendPlan s.sends = Xfer.error) ∧
      send env s buf =
        ⟨-1, { s with sends := s.sends + 1,
                      trace := s.trace ++ [Syscall.send buf.length (-1)] }⟩) ∨
    (∃ k, s.closed = false ∧ env.sendPlan s.sends = Xfer.upTo k ∧
      send env s buf =
        ⟨(min k (min buf.length MAX_XFER) : Nat),
          { s with outbound := s.outbound ++ buf.take (min k (min buf.length MAX_XFER)),
                   sends := s.sends + 1,
                   trace := s.trace ++
                     [Syscall.send buf.length (min k (min buf.length MAX_XFER) : Nat)] }⟩) := by
  cases hc : s.closed with
  | true => left; exact ⟨Or.inl rfl, by simp [send, hc]⟩
  | false =>
    cases hp : env.sendPlan s.sends with
    | error => left; exact ⟨Or.inr rfl, by simp [send, hc, hp]⟩
    | upTo k => right; exact ⟨k, rfl, rfl, by simp [send, hc, hp]⟩

/-- One iteration of `send_buffer` whose `send` fails: the loop ends. -/
theorem send_buffer_fail (env : Env) (fuel : Nat) (s : Sock) (bytes : List Nat)
    (hne : bytes ≠ []) (hfail : s.closed = true ∨ env.sendPlan s.sends = Xfer.error) :
    send_buffer env (fuel + 1) s bytes =
      Except.ok { s with sends := s.sends + 1,
                         trace := s.trace ++ [Syscall.send bytes.length (-1)] } := by
  have hpos : bytes.length > 0 := List.length_pos.mpr hne
  rcases send_fail_or_accept env s bytes with ⟨_, h⟩ | ⟨k, hopen, hplan, _⟩
  · rw [send_buffer, if_pos hpos, h]
    simp only [toInt32_neg_one]
    rfl
  · rcases hfail with hc | hp
    · rw [hc] at hopen; exact absurd hopen (by decide)
    · rw [hp] at hplan; exact absurd hplan (by simp)

/-- One iteration of `send_buffer` whose `send` is accepted: the loop goes on
with the bytes behind the accepted ones. -/
theorem send_buffer_accept (env : Env) (fuel : Nat) (s : Sock) (bytes : List Nat) (k : Nat)
    (hne : bytes ≠ []) (hopen : s.closed = false) (hplan : env.sendPlan s.sends = Xfer.upTo k) :
    send_buffer env (fuel + 1) s bytes =
      send_buffer env fuel
        { s with outbound := s.outbound ++ bytes.take (min k (min bytes.length MAX_XFER)),
                 sends := s.sends + 1,
                 trace := s.trace ++
                   [Syscall.send bytes.length (min k (min bytes.length MAX_XFER) : Nat)] }
        (bytes.drop (min k (min bytes.length MAX_XFER))) := by
  have hpos : bytes.length > 0 := List.length_pos.mpr hne
  have hnM : min k (min bytes.length MAX_XFER) ≤ MAX_XFER := by omega
  have hnot : ¬ ((min k (min bytes.length MAX_XFER) : Nat) : Int) < 0 := by omega
  rw [send_buffer, if_pos hpos, send_of_open env s bytes k hopen hplan]
  simp only [toInt32_of_small _ hnM, if_neg hnot, Int.toNat_ofNat]

theorem send_buffer_nil (env : Env) (fuel : Nat) (s : Sock) :
    send_buffer env fuel s [] = Except.ok s := by
  cases fuel <;> simp [send_buffer]

/-- The calls a finished run of `send_buffer` has made: accepted `send` calls,
then at most one failed one; and the bytes accepted are a leading part of the
buffer, all of it when no call failed. -/
theorem send_buffer_calls (env : Env) :
    ∀ (fuel : Nat) (s s' : Sock) (bytes : List Nat),
      send_buffer env fuel s bytes = Except.ok s' →
      ∃ (good last : List Syscall) (n : Nat),
        s'.trace = s.trace ++ good ++ last ∧
        (∀ e ∈ good, ∃ len m : Nat, e = Syscall.send len (m : Int)) ∧
        (last = [] ∨ ∃ len : Nat, last = [Syscall.send len (-1)]) ∧
        n ≤ bytes.length ∧ s'.outbound = s.outbound ++ bytes.take n ∧
        (last = [] → n = bytes.length) ∧
        s'.sends = s.sends + good.length + last.length := by
  intro fuel
  induction fuel with
  | zero =>
    intro s s' bytes h
    cases bytes with
    | nil =>
      simp only [send_buffer_nil, Except.ok.injEq] at h
      subst h
      exact ⟨[], [], 0, by simp, by simp, Or.inl rfl, by simp, by simp, by simp, by simp⟩
    | cons b bs => simp [send_buffer] at h
  | succ fuel ih =>
    intro s s' bytes h
    cases hb : bytes with
    | nil =>
      rw [hb, send_buffer_nil] at h
      simp only [Except.ok.injEq] at h
      subst h
      exact ⟨[], [], 0, by simp, by simp, Or.inl rfl, by simp, by simp, by simp, by simp⟩
    | cons b bs =>
      have hne : bytes ≠ [] := by rw [hb]; simp
      rw [← hb]
      rcases send_fail_or_accept env s bytes with ⟨hfail, _⟩ | ⟨k, hopen, hplan, _⟩
      · rw [send_buffer_fail env fuel s bytes hne hfail] at h
        simp only [Except.ok.injEq] at h
        subst h
        refine ⟨[], [Syscall.send bytes.length (-1)], 0, by simp, by simp,
          Or.inr ⟨bytes.length, rfl⟩, by omega, by simp, by simp, by simp⟩
      · rw [send_buffer_accept env fuel s bytes k hne hopen hplan] at h
        obtain ⟨good, last, n, htr, hgood, hlast, hn, hout, hall, hsends⟩ := ih _ _ _ h
        refine ⟨Syscall.send bytes.length (min k (min bytes.length MAX_XFER) : Nat) :: good,
          last, min k (min bytes.length MAX_XFER) + n, ?_, ?_, hlast, ?_, ?_, ?_, ?_⟩
        · rw [htr]; simp
        · intro e he
          rcases List.mem_cons.mp he with he | he
          · exact ⟨_, _, he⟩
          · exact hgood e he
        · simp only [List.length_drop] at hn; omega
        · rw [hout, List.append_assoc, List.take_add]
        · intro hl
          have := hall hl
          simp only [List.length_drop] at this
          omega
        · rw [hsends]; simp; omega

/-- A failing `send` call ends the loop: when the descriptor is closed, or the
call number `j` from here fails, `send_buffer` returns within `j + 1`
iterations. -/
theorem send_buffer_returns_at_failure (env : Env) :
    ∀ (j : Nat) (s : Sock) (bytes : List Nat),
      (s.closed = true ∨ env.sendPlan (s.sends + j) = Xfer.error) →
      ∃ s', send_buffer env (j + 1) s bytes = Except.ok s' ∧ s'.sends ≤ s.sends + j + 1 := by
  intro j
  induction j with
  | zero =>
    intro s bytes hfail
    cases hb : bytes with
    | nil => exact ⟨s, send_buffer_nil env _ s, by omega⟩
    | cons b bs =>
      rw [← hb]
      exact ⟨_, send_buffer_fail env 0 s bytes (by rw [hb]; simp) (by simpa using hfail),
        by simp⟩
  | succ j ih =>
    intro s bytes hfail
    cases hb : bytes with
    | nil => exact ⟨s, send_buffer_nil env _ s, by omega⟩
    | cons b bs =>
      have hne : bytes ≠ [] := by rw [hb]; simp
      rw [← hb]
      rcases send_fail_or_accept env s bytes with ⟨hnow, _⟩ | ⟨k, hopen, hplan, _⟩
      · exact ⟨_, send_buffer_fail env (j + 1) s bytes hne hnow, by simp⟩
      · rw [send_buffer_accept env (j + 1) s bytes k hne hopen hplan]
        have hfail' : env.sendPlan (s.sends + 1 + j) = Xfer.error := by
          rcases hfail with hc | hp
          · rw [hc] at hopen; exact absurd hopen (by decide)
          · rw [← hp]; congr 1; omega
        obtain ⟨s', hs', hle⟩ := ih
          { s with outbound := s.outbound ++ bytes.take (min k (min bytes.length MAX_XFER)),
                   sends := s.sends + 1,
                   trace := s.trace ++
                     [Syscall.send bytes.length (min k (min bytes.length MAX_XFER) : Nat)] }
          (bytes.drop (min k (min bytes.length MAX_XFER))) (Or.inr hfail')
        exact ⟨s', hs', by simp only at hle; omega⟩

/-- C16 (`send_buffer` stops at the first failure).  The calls of a finished
run of `send_buffer` are accepted `send` calls followed by at most one failed
call, which is the last call of the run, and the bytes accepted are a leading
part of the buffer, in order, all of it when no call failed.  A run cannot
go past a failing call: when the descriptor is closed or the call number `j`
from the start fails, the function has returned within `j + 1` calls. -/
theorem send_buffer_stops_at_first_failure (env : Env) (fuel : Nat) (s : Sock)
    (bytes : List Nat) :
    (∀ s', send_buffer env fuel s bytes = Except.ok s' →
      ∃ (good last : List Syscall) (n : Nat),
        s'.trace = s.trace ++ good ++ last ∧
        (∀ e ∈ good, ∃ len m : Nat, e = Syscall.send len (m : Int)) ∧
        (last = [] ∨ ∃ len : Nat, last = [Syscall.send len (-1)]) ∧
        n ≤ bytes.length ∧ s'.outbound = s.outbound ++ bytes.take n ∧
        (last = [] → n = bytes.length) ∧
        s'.sends = s.sends + good.length + last.length) ∧
    (∀ j, (s.closed = true ∨ env.sendPlan (s.sends + j) = Xfer.error) →
      ∃ s', send_buffer env (j + 1) s bytes = Except.ok s' ∧ s'.sends ≤ s.sends + j + 1) :=
  ⟨fun s' h => send_buffer_calls env fuel s s' bytes h,
    fun j h => send_buffer_returns_at_failure env j s bytes h⟩

/-- A run of `send_buffer` on three bytes whose second `send` fails: one byte
is accepted, the failed call is the last one. -/
theorem send_buffer_stops_example :
    send_buffer (failAt 1 1) 3 (fresh []) [7, 8, 9] =
      Except.ok ⟨[], [7], 0, 2, false, [Syscall.send 3 1, Syscall.send 2 (-1)]⟩ := by
  rfl

theorem send_buffer_bounded (env : Env)
    (hplan : ∀ i, env.sendPlan i = Xfer.error ∨ ∃ k, env.sendPlan i = Xfer.upTo k ∧ 1 ≤ k) :
    ∀ (fuel : Nat) (s : Sock) (bytes : List Nat), bytes.length ≤ fuel →
      ∃ s', send_buffer env fuel s bytes = Except.ok s' ∧ s.sends ≤ s'.sends ∧
        s'.sends ≤ s.sends + bytes.length := by
  intro fuel
  induction fuel with
  | zero =>
    intro s bytes hlen
    have hb : bytes = [] := List.length_eq_zero.mp (Nat.le_zero.mp hlen)
    subst hb
    exact ⟨s, send_buffer_nil env 0 s, le_refl _, by simp⟩
  | succ fuel ih =>
    intro s bytes hlen
    cases hb : bytes with
    | nil => exact ⟨s, send_buffer_nil env _ s, le_refl _, by simp⟩
    | cons b bs =>
      have hne : bytes ≠ [] := by rw [hb]; simp
      have hpos : 0 < bytes.length := List.length_pos.mpr hne
      rw [← hb]
      rcases send_fail_or_accept env s bytes with ⟨hnow, _⟩ | ⟨k, hopen, hk, _⟩
      · exact ⟨_, send_buffer_fail env fuel s bytes hne hnow, by simp, by simp; omega⟩
      · have hk1 : 1 ≤ k := by
          rcases hplan s.sends with h | ⟨k', h, h1⟩
          · rw [h] at hk; exact absurd hk (by simp)
          · rw [h] at hk; rw [← Xfer.upTo.inj hk]; exact h1
        have hM : 1 ≤ MAX_XFER := by unfold MAX_XFER; omega
        rw [send_buffer_accept env fuel s bytes k hne hopen hk]
        obtain ⟨s', hs', hlo, hhi⟩ := ih
          { s with outbound := s.outbound ++ bytes.take (min k (min bytes.length MAX_XFER)),
                   sends := s.sends + 1,
                   trace := s.trace ++
                     [Syscall.send bytes.length (min k (min bytes.length MAX_XFER) : Nat)] }
          (bytes.drop (min k (min bytes.length MAX_XFER)))
          (by simp only [List.length_drop]; omega)
        refine ⟨s', hs', ?_, ?_⟩
        · simp only at hlo; omega
        · simp only [List.length_drop] at hhi; omega

/-- C18 (termination of `send_buffer`).  When every `send` call either fails
or accepts at least one byte, `send_buffer` on a buffer of `n` bytes returns
within `n` iterations, having made at most `n` `send` calls.  In an iteration
whose `send` is accepted the value kept in `bytes_sent` is at least 1 and at
most the remaining length, so the remaining length gets smaller and does not
wrap. -/
theorem send_buffer_terminates (env : Env) (s : Sock) (bytes : List Nat)
    (hplan : ∀ i, env.sendPlan i = Xfer.error ∨ ∃ k, env.sendPlan i = Xfer.upTo k ∧ 1 ≤ k) :
    (∃ s', send_buffer env bytes.length s bytes = Except.ok s' ∧ s.sends ≤ s'.sends ∧
        s'.sends ≤ s.sends + bytes.length) ∧
    (∀ k, bytes ≠ [] → s.closed = false → env.sendPlan s.sends = Xfer.upTo k →
        1 ≤ toInt32 (send env s bytes).ret ∧
        toInt32 (send env s bytes).ret ≤ (bytes.length : Int) ∧
        (bytes.drop (toInt32 (send env s bytes).ret).toNat).length < bytes.length ∧
        send_buffer env bytes.length s bytes =
          send_buffer env (bytes.length - 1) (send env s bytes).sock
            (bytes.drop (toInt32 (send env s bytes).ret).toNat)) := by
  refine ⟨send_buffer_bounded env hplan bytes.length s bytes (le_refl _), ?_⟩
  intro k hne hopen hk
  have hpos : 0 < bytes.length := List.length_pos.mpr hne
  have hk1 : 1 ≤ k := by
    rcases hplan s.sends with h | ⟨k', h, h1⟩
    · rw [h] at hk; exact absurd hk (by simp)
    · rw [h] at hk; rw [← Xfer.upTo.inj hk]; exact h1
  have hM : 1 ≤ MAX_XFER := by unfold MAX_XFER; omega
  have hnM : min k (min bytes.length MAX_XFER) ≤ MAX_XFER := by omega
  have hstep := send_buffer_accept env (bytes.length - 1) s bytes k hne hopen hk
  rw [Nat.sub_add_cancel hpos] at hstep
  rw [send_of_open env s bytes k hopen hk]
  simp only [toInt32_of_small _ hnM, Int.toNat_ofNat, List.length_drop]
  refine ⟨by omega, by omega, by omega, hstep⟩

theorem send_buffer_terminates_witness :
    (∀ i, (failAt 1 1).sendPlan i = Xfer.error ∨
      ∃ k, (failAt 1 1).sendPlan i = Xfer.upTo k ∧ 1 ≤ k) ∧
    (∃ s', send_buffer (failAt 1 1) [7, 8, 9].length (fresh []) [7, 8, 9] = Except.ok s' ∧
        (fresh []).sends ≤ s'.sends ∧ s'.sends ≤ (fresh []).sends + [7, 8, 9].length) ∧
    (∀ k, [7, 8, 9] ≠ [] → (fresh []).closed = false →
        (failAt 1 1).sendPlan (fresh []).sends = Xfer.upTo k →
        1 ≤ toInt32 (send (failAt 1 1) (fresh []) [7, 8, 9]).ret ∧
        toInt32 (send (failAt 1 1) (fresh []) [7, 8, 9]).ret ≤ ([7, 8, 9].length : Int) ∧
        ([7, 8, 9].drop (toInt32 (send (failAt 1 1) (fresh []) [7, 8, 9]).ret).toNat).length
          < [7, 8, 9].length ∧
        send_buffer (failAt 1 1) [7, 8, 9].length (fresh []) [7, 8, 9] =
          send_buffer (failAt 1 1) ([7, 8, 9].length - 1)
            (send (failAt 1 1) (fresh []) [7, 8, 9]).sock
            ([7, 8, 9].drop (toInt32 (send (failAt 1 1) (fresh []) [7, 8, 9]).ret).toNat)) :=
  have hplan : ∀ i, (failAt 1 1).sendPlan i = Xfer.error ∨
      ∃ k, (failAt 1 1).sendPlan i = Xfer.upTo k ∧ 1 ≤ k := by
    intro i
    by_cases h : i = 1
    · left; simp [failAt, h]
    · right; exact ⟨1, by simp [failAt, h], le_refl 1⟩
  ⟨hplan, send_buffer_terminates (failAt 1 1) (fresh []) [7, 8, 9] hplan⟩

/-! ## Frames: the documented format, failing sends and truncation -/

set_option maxRecDepth 4000 in
/-- C14, as stated, fails: the message with uuid `a`, behavior `b` and the
payload 7 goes out with the behavior field between the uuid and the byte
count, which the frame of the comment does not have. -/
theorem send_message_not_as_documented :
    send_message tags0 (chunked 8 8) 5 (fresh []) [97] [98] [7] 1 =
      Except.ok ⟨[], [4, 1, 97, 1, 98, 0, 0, 0, 1, 7], 0, 3, false,
        [Syscall.send 5 5, Syscall.send 4 4, Syscall.send 1 1]⟩ ∧
    documented_send_message tags0 [97] [7] = [4, 1, 97, 0, 0, 0, 1, 7] :=
  ⟨rfl, by decide⟩

/-- C14, amended.  When the strings are at most 255 bytes, the header fits the
scratch array and every `send` accepts the buffer it is given, the frame that
`send_message` produces is the command byte, one byte with the length of the
actor uuid, the uuid, one byte with the length of the behavior name, the
behavior name, the message byte count in four bytes and the message data.
The behavior field stands between the uuid and the byte count, so the frame
is never the one of the comment. -/
theorem send_message_frame_fields (c : Commands) (env : Env) (fuel : Nat) (s : Sock)
    (uuid behavior bytes : List Nat) (count : Nat) (hopen : s.closed = false)
    (hplan : ∀ i, ∃ k, env.sendPlan i = Xfer.upTo k ∧ 4 ≤ k)
    (htag : c.COMMAND_SEND_MESSAGE < 256) (hu : uuid.length ≤ 255) (hb : behavior.length ≤ 255)
    (hfit : uuid.length + behavior.length ≤ 509)
    (hcount : count ≤ bytes.length) (h32 : count < 4294967296)
    (hfuel : 512 ≤ fuel) (hfuel2 : count ≤ fuel) :
    ∃ s', send_message c env fuel s uuid behavior bytes count = Except.ok s' ∧
      s'.outbound = s.outbound ++
        ([c.COMMAND_SEND_MESSAGE, uuid.length] ++ uuid ++ [behavior.length] ++ behavior ++
          wire_u32 count ++ bytes.take count) ∧
      s'.outbound ≠ s.outbound ++ documented_send_message c uuid (bytes.take count) := by
  obtain ⟨s', h, hout, _⟩ := send_message_wire_layout c env fuel s uuid behavior bytes count
    hopen hplan htag hu hb hfit hcount h32 hfuel hfuel2
  have hlen : (bytes.take count).length = count := by
    simp only [List.length_take]; omega
  refine ⟨s', h, ?_, ?_⟩
  · rw [hout]
    simp [wire_send_message, wire_string, wire_payload, hlen]
  · rw [hout]
    intro heq
    have h2 := congrArg List.length (List.append_cancel_left heq)
    simp [wire_send_message, documented_send_message, wire_string, wire_payload, wire_u32]
      at h2
    omega

theorem send_message_frame_fields_witness :
    (fresh []).closed = false ∧
    (∀ i, ∃ k, (chunked 8 8).sendPlan i = Xfer.upTo k ∧ 4 ≤ k) ∧
    tags0.COMMAND_SEND_MESSAGE < 256 ∧ [97].length ≤ 255 ∧ [98].length ≤ 255 ∧
    [97].length + [98].length ≤ 509 ∧ 1 ≤ [7].length ∧ 1 < 4294967296 ∧ 512 ≤ 512 ∧ 1 ≤ 512 ∧
    ∃ s', send_message tags0 (chunked 8 8) 512 (fresh []) [97] [98] [7] 1 = Except.ok s' ∧
      s'.outbound = (fresh []).outbound ++
        ([tags0.COMMAND_SEND_MESSAGE, [97].length] ++ [97] ++ [[98].length] ++ [98] ++
          wire_u32 1 ++ [7].take 1) ∧
      s'.outbound ≠ (fresh []).outbound ++ documented_send_message tags0 [97] ([7].take 1) :=
  ⟨rfl, fun _ => ⟨8, rfl, by decide⟩, by decide, by decide, by decide, by decide, by decide,
    by decide, by decide, by decide,
    send_message_frame_fields tags0 (chunked 8 8) 512 (fresh []) [97] [98] [7] 1 rfl
      (fun _ => ⟨8, rfl, by decide⟩) (by decide) (by decide) (by decide) (by decide)
      (by decide) (by decide) (by decide) (by decide)⟩

/-- One iteration of `send_buffer` on a buffer that is not empty. -/
theorem send_buffer_cons (env : Env) (fuel : Nat) (s : Sock) (b : Nat) (bs : List Nat) :
    send_buffer env (fuel + 1) s (b :: bs) =
      if s.closed = true then
        Except.ok { s with sends := s.sends + 1,
                           trace := s.trace ++ [Syscall.send (bs.length + 1) (-1)] }
      else
        match env.sendPlan s.sends with
        | Xfer.error =>
          Except.ok { s with sends := s.sends + 1,
                             trace := s.trace ++ [Syscall.send (bs.length + 1) (-1)] }
        | Xfer.upTo k =>
          send_buffer env fuel
            { s with outbound := s.outbound ++
                       (b :: bs).take (min k (min (bs.length + 1) MAX_XFER)),
                     sends := s.sends + 1,
                     trace := s.trace ++
                       [Syscall.send (bs.length + 1)
                         (min k (min (bs.length + 1) MAX_XFER) : Nat)] }
            ((b :: bs).drop (min k (min (bs.length + 1) MAX_XFER))) := by
  by_cases hc : s.closed = true
  · rw [send_buffer_fail env fuel s (b :: bs) (by simp) (Or.inl hc)]
    simp [hc]
  · have hopen : s.closed = false := by simpa using hc
    cases hp : env.sendPlan s.sends with
    | error =>
      rw [send_buffer_fail env fuel s (b :: bs) (by simp) (Or.inr hp)]
      simp [hopen]
    | upTo k =>
      rw [send_buffer_accept env fuel s (b :: bs) k (by simp) hopen hp]
      simp [hopen]

/-- C15 (a failed header send abandons the frame).  The reply with uuid `a`
and the payload 7, and the message with uuid `a`, behavior `b` and the same
payload, over a transport whose first `send` call fails and whose later calls
succeed: the header is lost, and the payload length and the payload still go
out.  When the second call fails over a transport that accepts one byte per
call, the tag is followed by the first length byte and the payload.  What
reaches the connection is no leading part of the frame. -/
theorem frame_goes_on_after_failed_header (c : Commands) :
    send_reply c (failAt 0 8) 3 (fresh []) [97] [7] 1 =
      Except.ok ⟨[], [0, 0, 0, 1, 7], 0, 3, false,
        [Syscall.send 3 (-1), Syscall.send 4 4, Syscall.send 1 1]⟩ ∧
    send_message c (failAt 0 8) 5 (fresh []) [97] [98] [7] 1 =
      Except.ok ⟨[], [0, 0, 0, 1, 7], 0, 3, false,
        [Syscall.send 5 (-1), Syscall.send 4 4, Syscall.send 1 1]⟩ ∧
    send_reply c (failAt 1 1) 3 (fresh []) [97] [7] 1 =
      Except.ok ⟨[], [c.COMMAND_SEND_REPLY % 256, 0, 7], 0, 4, false,
        [Syscall.send 3 1, Syscall.send 2 (-1), Syscall.send 4 1, Syscall.send 1 1]⟩ ∧
    ¬ ([0, 0, 0, 1, 7] <+: wire_send_reply c [97] [7]) ∧
    ¬ ([0, 0, 0, 1, 7] <+: wire_send_message c [97] [98] [7]) ∧
    ¬ ([c.COMMAND_SEND_REPLY % 256, 0, 7] <+: wire_send_reply c [97] [7]) := by
  refine ⟨?_, ?_, ?_, ?_, ?_, ?_⟩
  · rw [send_reply_eq]
    simp only [send_buffer_cons, send_buffer_nil, failAt, fresh, List.length_cons,
      List.length_nil, List.cons_append, List.nil_append, List.take, List.singleton_append]
    simp [Except.bind, send, htonl, MAX_XFER, send_buffer_cons, send_buffer_nil]
  · rw [send_message_fits c _ _ _ _ _ _ _ (by decide)]
    simp only [send_buffer_cons, send_buffer_nil, failAt, fresh, List.length_cons,
      List.length_nil, List.cons_append, List.nil_append, List.take, List.singleton_append]
    simp [Except.bind, send, htonl, MAX_XFER, send_buffer_cons, send_buffer_nil]
  · rw [send_reply_eq]
    simp only [send_buffer_cons, send_buffer_nil, failAt, fresh, List.length_cons,
      List.length_nil, List.cons_append, List.nil_append, List.take, List.singleton_append]
    simp [Except.bind, send, htonl, MAX_XFER, send_buffer_cons, send_buffer_nil]
  · simp [wire_send_reply, wire_string, List.cons_prefix_cons]
  · simp [wire_send_message, wire_string, List.cons_prefix_cons]
  · simp [wire_send_reply, wire_string, List.cons_prefix_cons]

/-- C19 (truncation of the length byte).  Every encoder hands to
`send_buffer`, for a string of length `L`, the length byte `L mod 256`
followed by the first `L mod 256` bytes of the string: the encoders with one
string field always, `send_create_actor` and `send_message` whenever the two
length bytes add up to at most 509.  Such a field is the encoding of the wire
table exactly when `L` is at most 255.  With length bytes 255 and 255 (here
strings of 511 and 255 bytes) the two-string encoders store outside their
scratch array instead. -/
theorem length_byte_truncation (c : Commands) (env : Env) (fuel : Nat) (s : Sock)
    (str1 str2 bytes : List Nat) (count : Nat) :
    send_version_check c str1 env fuel s =
      send_buffer env fuel s
        ([c.COMMAND_VERSION_CHECK % 256, str1.length % 256] ++
          str1.take (str1.length % 256)) ∧
    send_destroy_actor c env fuel s str1 =
      send_buffer env fuel s
        ([c.COMMAND_DESTROY_ACTOR % 256, str1.length % 256] ++
          str1.take (str1.length % 256)) ∧
    send_reply c env fuel s str1 bytes count =
      (send_buffer env fuel s
        ([c.COMMAND_SEND_REPLY % 256, str1.length % 256] ++
          str1.take (str1.length % 256))).bind
        (fun s1 => send_buffer env fuel (send env s1 (htonl (count % 4294967296))).sock
          (bytes.take (count % 4294967296))) ∧
    (str1.length % 256 + str2.length % 256 ≤ 509 →
      send_create_actor c env fuel s str1 str2 =
        send_buffer env fuel s
          ([c.COMMAND_CREATE_ACTOR % 256, str1.length % 256] ++
            str1.take (str1.length % 256) ++
            [str2.length % 256] ++ str2.take (str2.length % 256)) ∧
      send_message c env fuel s str1 str2 bytes count =
        (send_buffer env fuel s
          ([c.COMMAND_SEND_MESSAGE % 256, str1.length % 256] ++
            str1.take (str1.length % 256) ++
            [str2.length % 256] ++ str2.take (str2.length % 256))).bind
          (fun s1 => send_buffer env fuel (send env s1 (htonl (count % 4294967296))).sock
            (bytes.take (count % 4294967296)))) ∧
    ([str1.length % 256] ++ str1.take (str1.length % 256) = wire_string str1 ↔
      str1.length ≤ 255) ∧
    send_create_actor c env fuel s (List.replicate 511 97) (List.replicate 255 98)
      = Except.error (Fault.outOfBounds 512) ∧
    send_message c env fuel s (List.replicate 511 97) (List.replicate 255 98) bytes count
      = Except.error (Fault.outOfBounds 512) := by
  refine ⟨?_, ?_, ?_, ?_, ?_, ?_, ?_⟩
  · rw [send_version_check_eq, Nat.mod_mod]
  · rw [send_destroy_actor_eq, Nat.mod_mod]
  · rw [send_reply_eq, Nat.mod_mod]
  · intro hfit
    constructor
    · rw [send_create_actor_fits c env fuel s str1 str2 hfit, Nat.mod_mod, Nat.mod_mod]
    · rw [send_message_fits c env fuel s str1 str2 bytes count hfit, Nat.mod_mod, Nat.mod_mod]
  · constructor
    · intro h
      have h0 : str1.length % 256 = str1.length := by
        simpa [wire_string] using (List.cons.inj h).1
      have : str1.length % 256 < 256 := Nat.mod_lt _ (by norm_num)
      omega
    · intro h
      have h0 : str1.length % 256 = str1.length := Nat.mod_eq_of_lt (by omega)
      simp [wire_string, h0]
  · exact send_create_actor_overflow c env fuel s _ _
      (by simp only [List.length_replicate]; norm_num)
  · exact send_message_overflow c env fuel s _ _ bytes count
      (by simp only [List.length_replicate]; norm_num)

/-! ## Shutdown of both roles -/

/-- C13 (shutdown idempotence).  One call of `pony_remote_shutdown` tears down
the master role and then the slave role, each once; it closes the open
connections of both roles, each as often as it was listed open, and leaves no
open connection and no live actor.  A second call right after changes neither
the roles nor the connections closed nor the actors released: it closes
nothing again. -/
theorem pony_remote_shutdown_idempotent (rt : RemoteRuntime) :
    (pony_remote_shutdown rt).torn = rt.torn ++ [Role.master, Role.slave] ∧
    (pony_remote_shutdown rt).master = ⟨[], []⟩ ∧
    (pony_remote_shutdown rt).slave = ⟨[], []⟩ ∧
    (pony_remote_shutdown rt).closed
      = rt.closed ++ rt.master.connections ++ rt.slave.connections ∧
    (pony_remote_shutdown rt).released = rt.released ++ rt.master.actors ++ rt.slave.actors ∧
    (pony_remote_shutdown (pony_remote_shutdown rt)).master = (pony_remote_shutdown rt).master ∧
    (pony_remote_shutdown (pony_remote_shutdown rt)).slave = (pony_remote_shutdown rt).slave ∧
    (pony_remote_shutdown (pony_remote_shutdown rt)).closed = (pony_remote_shutdown rt).closed ∧
    (pony_remote_shutdown (pony_remote_shutdown rt)).released
      = (pony_remote_shutdown rt).released ∧
    ((rt.closed ++ rt.master.connections ++ rt.slave.connections).Nodup →
      (pony_remote_shutdown (pony_remote_shutdown rt)).closed.Nodup) := by
  simp [pony_remote_shutdown, master_shutdown, slave_shutdown]

/-- Two shutdowns of a node with one master connection, two slave
connections and two hosted actors. -/
theorem pony_remote_shutdown_example :
    pony_remote_shutdown ⟨⟨[3], []⟩, ⟨[4, 5], [10, 11]⟩, [], [], []⟩
      = ⟨⟨[], []⟩, ⟨[], []⟩, [3, 4, 5], [10, 11], [Role.master, Role.slave]⟩ ∧
    pony_remote_shutdown (pony_remote_shutdown ⟨⟨[3], []⟩, ⟨[4, 5], [10, 11]⟩, [], [], []⟩)
      = ⟨⟨[], []⟩, ⟨[], []⟩, [3, 4, 5], [10, 11],
          [Role.master, Role.slave, Role.master, Role.slave]⟩ := by
  decide

end Flynn
